import Mathlib

/-!
Verification development for the grant-evaluator repository.

This file shallowly embeds the pipeline-orchestration and broadcasting core
of the repository (`backend/evaluation_pipeline.py`, `backend/main.py`,
`backend/websocket_manager.py`, `src/agents/scoring.py`,
`src/config/domain_weights.py`) into Lean and proves properties about it.

Modelling conventions:
* Python floats are modelled as exact rationals (`ℚ`).  All arithmetic that
  the claims touch involves small dyadic/decimal values for which Python's
  binary floating point is exact or whose claims are independent of the
  final bits.
* Python `dict`s are modelled as association lists in insertion order
  (Python 3.7+ iteration order); `set`s as duplicate-free lists.
* Python exceptions are modelled with the `PyErr` type and fallible code
  returns `Except PyErr α`; a `try/except` becomes a `match` that inspects
  which constructors the corresponding handler catches.
* Wall-clock timestamps are not modelled (events carry no timestamp field).
-/

/-- Exact rational arithmetic that reduces inside the kernel (Lean's `ℚ`
normalizes through `Nat.gcd`, which the kernel cannot evaluate).  A value
denotes `num / den`; every constructor and operation below keeps `den`
positive.  `toRat` interprets a value in `ℚ` for use in theorem statements. -/
structure Q where
  num : Int
  den : Nat
deriving Repr, DecidableEq

namespace Q

/-- The rational a value denotes. -/
def toRat (x : Q) : ℚ := (x.num : ℚ) / (x.den : ℚ)

/-- Embed an integer. -/
def ofInt (n : Int) : Q := ⟨n, 1⟩

/-- Embed a natural number. -/
def ofNat (n : Nat) : Q := ⟨(n : Int), 1⟩

instance : OfNat Q n := ⟨Q.ofNat n⟩

def add (a b : Q) : Q := ⟨a.num * (b.den : Int) + b.num * (a.den : Int), a.den * b.den⟩

def neg (a : Q) : Q := ⟨-a.num, a.den⟩

def sub (a b : Q) : Q := a.add b.neg

def mul (a b : Q) : Q := ⟨a.num * b.num, a.den * b.den⟩

/-- Division; keeps the denominator positive by moving `b.num`'s sign into
the numerator.  Callers guard against `b = 0` exactly where the Python
source would raise `ZeroDivisionError`. -/
def div (a b : Q) : Q := ⟨a.num * (b.den : Int) * Int.sign b.num, a.den * b.num.natAbs⟩

/-- Boolean `≤` by cross multiplication (sound when denominators are positive). -/
def leB (a b : Q) : Bool := a.num * (b.den : Int) ≤ b.num * (a.den : Int)

/-- Boolean `<` by cross multiplication (sound when denominators are positive). -/
def ltB (a b : Q) : Bool := a.num * (b.den : Int) < b.num * (a.den : Int)

/-- Boolean equality by cross multiplication (sound when denominators are
positive). -/
def beq (a b : Q) : Bool := a.num * (b.den : Int) == b.num * (a.den : Int)

/-- Python `min(a, b)`. -/
def minQ (a b : Q) : Q := if leB a b then a else b

/-- Python `max(a, b)`. -/
def maxQ (a b : Q) : Q := if leB a b then b else a

/-- Sum of a list of values. -/
def sum (xs : List Q) : Q := xs.foldl add 0

/-- Well-formedness: the denominator is positive.  All literals in the
embedding satisfy it and all operations preserve it. -/
def Pos (x : Q) : Prop := 0 < x.den

end Q

/-- Python/JSON values as produced by `json.loads`. -/
inductive Json where
  | null : Json
  | bool (b : Bool) : Json
  | num (q : Q) : Json
  | str (s : String) : Json
  | arr (xs : List Json) : Json
  | obj (kvs : List (String × Json)) : Json
deriving Repr

/-- Python exception kinds that the embedded code can raise or catch. -/
inductive PyErr where
  | jsonDecodeError (m : String) : PyErr
  | valueError (m : String) : PyErr
  | keyError (m : String) : PyErr
  | typeError (m : String) : PyErr
  | attributeError (m : String) : PyErr
  | zeroDivisionError : PyErr
  | exc (m : String) : PyErr
deriving Repr, DecidableEq

/-- Human-readable message of an exception (Python `str(e)`). -/
def PyErr.msg : PyErr → String
  | .jsonDecodeError m => m
  | .valueError m => m
  | .keyError m => m
  | .typeError m => m
  | .attributeError m => m
  | .zeroDivisionError => "division by zero"
  | .exc m => m

namespace Json

/-- Does an association list (a parsed JSON object) have the given key? -/
def hasKey (kvs : List (String × Json)) (k : String) : Bool :=
  kvs.any (fun p => p.1 == k)

/-- `dict.get(k, d)`: first value bound to `k`, or the default. -/
def findD (kvs : List (String × Json)) (k : String) (d : Json) : Json :=
  match kvs.find? (fun p => p.1 == k) with
  | some p => p.2
  | none => d

/-- Characters accepted as whitespace by the JSON grammar. -/
def isJsonWs (c : Char) : Bool :=
  c == ' ' || c == '\n' || c == '\t' || c == '\r'

/-- Drop leading JSON whitespace. -/
def skipWs (cs : List Char) : List Char :=
  cs.dropWhile isJsonWs

/-- Decimal digit value of a character, if it is a digit. -/
def digitVal (c : Char) : Option Nat :=
  if '0' ≤ c ∧ c ≤ '9' then some (c.toNat - '0'.toNat) else none

/-- Longest digit run at the front: accumulated value, count, rest. -/
def takeDigits : List Char → Nat → Nat → Nat × Nat × List Char
  | [], acc, n => (acc, n, [])
  | c :: cs, acc, n =>
    match digitVal c with
    | some d => takeDigits cs (acc * 10 + d) (n + 1)
    | none => (acc, n, c :: cs)

/-- Hexadecimal digit value of a character, if any. -/
def hexVal (c : Char) : Option Nat :=
  if '0' ≤ c ∧ c ≤ '9' then some (c.toNat - '0'.toNat)
  else if 'a' ≤ c ∧ c ≤ 'f' then some (c.toNat - 'a'.toNat + 10)
  else if 'A' ≤ c ∧ c ≤ 'F' then some (c.toNat - 'A'.toNat + 10)
  else none

/-- Decode one escape sequence after a backslash: decoded character plus the
input remaining after the sequence. -/
def decodeEscape : List Char → Option (Char × List Char)
  | [] => none
  | e :: cs =>
    match e with
    | '"' => some ('"', cs)
    | '\\' => some ('\\', cs)
    | '/' => some ('/', cs)
    | 'n' => some ('\n', cs)
    | 't' => some ('\t', cs)
    | 'r' => some ('\r', cs)
    | 'b' => some (Char.ofNat 8, cs)
    | 'f' => some (Char.ofNat 12, cs)
    | 'u' =>
      match cs with
      | h1 :: h2 :: h3 :: h4 :: cs' =>
        match hexVal h1, hexVal h2, hexVal h3, hexVal h4 with
        | some a, some b, some c, some d =>
          some (Char.ofNat (((a * 16 + b) * 16 + c) * 16 + d), cs')
        | _, _, _, _ => none
      | _ => none
    | _ => none

/-- Body of a JSON string after the opening quote, with escape handling.
Returns the decoded characters and the input remaining after the closing
quote.  Fuel-indexed by the input length. -/
def parseStringChars : Nat → List Char → Option (List Char × List Char)
  | 0, _ => none
  | _, [] => none
  | Nat.succ fuel, c :: cs =>
    if c == '"' then some ([], cs)
    else if c == '\\' then
      match decodeEscape cs with
      | some (d, rest) =>
        match parseStringChars fuel rest with
        | some (s, r) => some (d :: s, r)
        | none => none
      | none => none
    else
      match parseStringChars fuel cs with
      | some (s, r) => some (c :: s, r)
      | none => none

/-- String body with the fuel instantiated to the input length. -/
def parseStringRest (cs : List Char) : Option (List Char × List Char) :=
  parseStringChars (cs.length + 1) cs

/-- A JSON number at the front of the input: optional minus, integer part,
optional fraction, optional exponent. -/
def parseNumber (cs : List Char) : Option (Json × List Char) :=
  let (neg, cs₁) :=
    match cs with
    | '-' :: rest => (true, rest)
    | _ => (false, cs)
  let (ip, ipn, cs₂) := takeDigits cs₁ 0 0
  if ipn == 0 then none else
  let (mant, scale, cs₃) :=
    match cs₂ with
    | '.' :: rest =>
      let (fp, fpn, rest') := takeDigits rest 0 0
      (ip * 10 ^ fpn + fp, fpn, rest')
    | _ => (ip, 0, cs₂)
  let base : Q := ⟨(mant : Int), 10 ^ scale⟩
  let applyExp (eneg : Bool) (ev : Nat) : Q :=
    if eneg then ⟨base.num, base.den * 10 ^ ev⟩
    else ⟨base.num * (10 : Int) ^ ev, base.den⟩
  let withExp : Option (Q × List Char) :=
    match cs₃ with
    | 'e' :: rest =>
      let (eneg, rest₁) :=
        match rest with
        | '-' :: r => (true, r)
        | '+' :: r => (false, r)
        | _ => (false, rest)
      let (ev, evn, rest₂) := takeDigits rest₁ 0 0
      if evn == 0 then none
      else some (applyExp eneg ev, rest₂)
    | 'E' :: rest =>
      let (eneg, rest₁) :=
        match rest with
        | '-' :: r => (true, r)
        | '+' :: r => (false, r)
        | _ => (false, rest)
      let (ev, evn, rest₂) := takeDigits rest₁ 0 0
      if evn == 0 then none
      else some (applyExp eneg ev, rest₂)
    | _ => some (base, cs₃)
  match withExp with
  | some (q, rest) => some (.num (if neg then ⟨-q.num, q.den⟩ else q), rest)
  | none => none

mutual

/-- A JSON value at the front of the input (fuel-indexed recursive descent). -/
def parseVal : Nat → List Char → Option (Json × List Char)
  | 0, _ => none
  | Nat.succ fuel, cs =>
    match skipWs cs with
    | [] => none
    | '{' :: rest =>
      match skipWs rest with
      | '}' :: rest₂ => some (.obj [], rest₂)
      | rest₁ =>
        match parseMembers fuel rest₁ with
        | some (kvs, rest₂) => some (.obj kvs, rest₂)
        | none => none
    | '[' :: rest =>
      match skipWs rest with
      | ']' :: rest₂ => some (.arr [], rest₂)
      | rest₁ =>
        match parseElems fuel rest₁ with
        | some (xs, rest₂) => some (.arr xs, rest₂)
        | none => none
    | '"' :: rest =>
      match parseStringRest rest with
      | some (s, rest₂) => some (.str (String.mk s), rest₂)
      | none => none
    | 't' :: 'r' :: 'u' :: 'e' :: rest => some (.bool true, rest)
    | 'f' :: 'a' :: 'l' :: 's' :: 'e' :: rest => some (.bool false, rest)
    | 'n' :: 'u' :: 'l' :: 'l' :: rest => some (.null, rest)
    | other => parseNumber other

/-- Members of a JSON object after the opening brace (and not `}`). -/
def parseMembers : Nat → List Char → Option (List (String × Json) × List Char)
  | 0, _ => none
  | Nat.succ fuel, cs =>
    match skipWs cs with
    | '"' :: rest =>
      match parseStringRest rest with
      | some (k, rest₂) =>
        match skipWs rest₂ with
        | ':' :: rest₃ =>
          match parseVal fuel rest₃ with
          | some (v, rest₄) =>
            match skipWs rest₄ with
            | ',' :: rest₅ =>
              match parseMembers fuel rest₅ with
              | some (kvs, rest₆) => some ((String.mk k, v) :: kvs, rest₆)
              | none => none
            | '}' :: rest₅ => some ([(String.mk k, v)], rest₅)
            | _ => none
          | none => none
        | _ => none
      | none => none
    | _ => none

/-- Elements of a JSON array after the opening bracket (and not `]`). -/
def parseElems : Nat → List Char → Option (List Json × List Char)
  | 0, _ => none
  | Nat.succ fuel, cs =>
    match parseVal fuel cs with
    | some (v, rest) =>
      match skipWs rest with
      | ',' :: rest₂ =>
        match parseElems fuel rest₂ with
        | some (xs, rest₃) => some (v :: xs, rest₃)
        | none => none
      | ']' :: rest₂ => some ([v], rest₂)
      | _ => none
    | none => none

end

/-- `json.loads`: parse a complete JSON document (trailing whitespace only).
Note: on duplicate object keys Python keeps the last binding; our object
lookups read the first binding, and no theorem below exercises duplicates. -/
def parse (s : String) : Option Json :=
  match parseVal (s.length + 1) s.toList with
  | some (v, rest) => if (skipWs rest).isEmpty then some v else none
  | none => none

end Json


/-- Does `needle` match at the front of `hay`? -/
def charsMatchAt : List Char → List Char → Bool
  | [], _ => true
  | _ :: _, [] => false
  | n :: ns, h :: hs => n == h && charsMatchAt ns hs

/-- Is `needle` a contiguous substring of `hay` (Python `needle in hay`)? -/
def charsHasSub (needle : List Char) : List Char → Bool
  | [] => charsMatchAt needle []
  | h :: hs => if charsMatchAt needle (h :: hs) then true else charsHasSub needle hs

/-- Python `needle in hay` for strings. -/
def strHasSub (needle hay : String) : Bool :=
  charsHasSub needle.toList hay.toList

namespace Json

/-- Python truthiness (`bool(v)`). -/
def truthy : Json → Bool
  | .null => false
  | .bool b => b
  | .num q => !(q.num == 0)
  | .str s => !s.isEmpty
  | .arr xs => !xs.isEmpty
  | .obj kvs => !kvs.isEmpty

/-- Python `len(v)`; raises `TypeError` on values without a length. -/
def pyLen : Json → Except PyErr Nat
  | .str s => .ok s.length
  | .arr xs => .ok xs.length
  | .obj kvs => .ok kvs.length
  | _ => .error (.typeError "object has no len()")

/-- Python `needle in v`: key membership for dicts, element membership for
lists (string equality, since the needle is a string), substring test for
strings, `TypeError` otherwise. -/
def pyContains (needle : String) : Json → Except PyErr Bool
  | .obj kvs => .ok (hasKey kvs needle)
  | .arr xs => .ok (xs.any fun j => match j with | .str s => s == needle | _ => false)
  | .str s => .ok (strHasSub needle s)
  | _ => .error (.typeError "argument is not iterable")

/-- Python `v.get(k, d)`; raises `AttributeError` when `v` is not a dict. -/
def pyGetD (v : Json) (k : String) (d : Json) : Except PyErr Json :=
  match v with
  | .obj kvs => .ok (findD kvs k d)
  | _ => .error (.attributeError "object has no attribute get")

/-- `dict.values()`; raises `AttributeError` when `v` is not a dict. -/
def pyValues : Json → Except PyErr (List Json)
  | .obj kvs => .ok (kvs.map Prod.snd)
  | _ => .error (.attributeError "object has no attribute values")

/-- Iterating a Python value: list elements, string characters, dict keys;
`TypeError` otherwise. -/
def pyIter : Json → Except PyErr (List Json)
  | .arr xs => .ok xs
  | .str s => .ok (s.toList.map fun c => .str (String.mk [c]))
  | .obj kvs => .ok (kvs.map fun p => .str p.1)
  | _ => .error (.typeError "object is not iterable")

/-- A value used as a number (Python arithmetic; `bool` coerces to 0/1,
anything non-numeric raises `TypeError`). -/
def asNum : Json → Except PyErr Q
  | .num q => .ok q
  | .bool b => .ok (if b then 1 else 0)
  | _ => .error (.typeError "unsupported operand type")

/-- Python `sum(xs)` over extracted values. -/
def sumNums (xs : List Json) : Except PyErr Q :=
  xs.foldlM (fun acc v => do
    let q ← asNum v
    pure (acc.add q)) (0 : Q)

end Json

/-!
## Structured-output recovery (`src/agents/scoring.py`)

`run_grant_scoring` calls the model, strips markdown fencing
(`strip_codeblock`, a pure regex substitution that we do not model — the
definitions below take the already-cleaned response text), then parses the
result with the recovery logic embedded here.
-/

/-- `repair_json` (scoring.py lines 13–37): balance an odd quote count, then
unmatched braces, then unmatched brackets, by appending closers. -/
def repair_json (text : String) : String :=
  let text :=
    if text.toList.count '"' % 2 != 0 then text ++ "\"" else text
  let openBraces := text.toList.count '{'
  let closeBraces := text.toList.count '}'
  let text :=
    if closeBraces < openBraces then
      text ++ String.mk (List.replicate (openBraces - closeBraces) '}')
    else text
  let openBrackets := text.toList.count '['
  let closeBrackets := text.toList.count ']'
  let text :=
    if closeBrackets < openBrackets then
      text ++ String.mk (List.replicate (openBrackets - closeBrackets) ']')
    else text
  text

/-- Section names probed by the strict branch of `run_grant_scoring`. -/
def sectionNamesFull : List String :=
  ["Objectives", "Methodology", "Budget", "Innovation", "Impact",
   "Feasibility", "Background", "Timeline", "Team", "Sustainability"]

/-- Section names probed after repair (scoring.py line 88). -/
def sectionNamesShort : List String :=
  ["Objectives", "Methodology", "Budget", "Innovation", "Impact"]

/-- Body of the outer `try` in `run_grant_scoring` (lines 57–79): strict
parse, dict check, `"scores"` key check, flat-structure wrapping. -/
def scoringStrictStep (cleaned : String) : Except PyErr Json :=
  match Json.parse cleaned with
  | none => .error (.jsonDecodeError "Expecting value")
  | some v =>
    match v with
    | .obj kvs =>
      if Json.hasKey kvs "scores" then .ok (.obj kvs)
      else if sectionNamesFull.any (fun sec => Json.hasKey kvs sec) then
        .ok (.obj [("scores", .obj kvs),
                   ("overall_summary", Json.findD kvs "overall_summary" (.str ""))])
      else .error (.valueError "Response has neither scores key nor section names")
    | _ => .error (.valueError "Expected dict from scoring agent")

/-- Python `any(sec in v for sec in names)`: short-circuiting, and raising
whatever the first membership test raises. -/
def anyContains (v : Json) : List String → Except PyErr Bool
  | [] => .ok false
  | n :: ns => do
    let c ← Json.pyContains n v
    if c then pure true else anyContains v ns

/-- Body of the inner `try` in `run_grant_scoring` (lines 82–95): repair,
re-parse, and re-validate — without the dict `isinstance` check, so the
membership/`get` operations here can raise `TypeError`/`AttributeError`. -/
def scoringRepairStep (cleaned : String) : Except PyErr Json :=
  let repaired := repair_json cleaned
  match Json.parse repaired with
  | none => .error (.jsonDecodeError "Expecting value")
  | some v => do
    let hasScores ← Json.pyContains "scores" v
    if hasScores then pure v
    else do
      let found ← anyContains v sectionNamesShort
      if found then do
        let os ← Json.pyGetD v "overall_summary" (.str "")
        pure (.obj [("scores", v), ("overall_summary", os)])
      else .error (.valueError "Repaired JSON still malformed")

/-- Last-resort fallback shape (scoring.py lines 100–109). -/
def scoringFallback (cleaned : String) : Json :=
  .obj [("scores", .obj [
      ("Objectives", .obj [("score", .num 0), ("feedback", .str "Error: Unable to parse LLM response")]),
      ("Methodology", .obj [("score", .num 0), ("feedback", .str "Error: Unable to parse LLM response")]),
      ("Budget", .obj [("score", .num 0), ("feedback", .str "Error: Unable to parse LLM response")]),
      ("Impact", .obj [("score", .num 0), ("feedback", .str "Error: Unable to parse LLM response")])]),
    ("overall_summary", .str "Error: LLM returned invalid JSON - please retry evaluation"),
    ("raw_response", .str (String.mk (cleaned.toList.take 1000)))]

/-- Which exceptions the outer handler catches:
`except (json.JSONDecodeError, ValueError)`. -/
def outerCatches : PyErr → Bool
  | .jsonDecodeError _ => true
  | .valueError _ => true
  | _ => false

/-- The complete parse/repair/fallback recovery of `run_grant_scoring`
applied to the cleaned model response.  The inner handler is
`except Exception`, so any failure of the repair branch resolves to the
fallback shape; an exception the outer handler does not catch would
propagate (the theorems show none can). -/
def run_grant_scoring_recovery (cleaned : String) : Except PyErr Json :=
  match scoringStrictStep cleaned with
  | .ok v => .ok v
  | .error e =>
    if outerCatches e then
      match scoringRepairStep cleaned with
      | .ok v => .ok v
      | .error _ => .ok (scoringFallback cleaned)
    else .error e



/-- Round `num / den` (with `den > 0`) to the nearest integer, ties to even
(Python's `round`). -/
def roundHalfEvenInt (num : Int) (den : Nat) : Int :=
  let f := Int.fdiv num (den : Int)
  let r := num - f * (den : Int)
  if 2 * r < (den : Int) then f
  else if (den : Int) < 2 * r then f + 1
  else if f % 2 == 0 then f else f + 1

/-- Python `round(x, digits)` modelled as exact decimal rounding, ties to
even.  (CPython rounds the nearest binary double; for the small decimal
values the pipeline produces the two agree.) -/
def Q.roundTo (x : Q) (digits : Nat) : Q :=
  ⟨roundHalfEvenInt (x.num * (10 : Int) ^ digits) x.den, 10 ^ digits⟩

/-!
## Score aggregation (`src/config/domain_weights.py`)
-/

/-- A percentage literal `n/100`, used for the weight table entries. -/
def pct (n : Int) : Q := ⟨n, 100⟩

/-- `DOMAIN_WEIGHTS` (domain_weights.py lines 1–170). -/
def DOMAIN_WEIGHTS : List (String × List (String × Q)) :=
  [("AI / Computer Science",
    [("Objectives", pct 15), ("Methodology", pct 25), ("Innovation", pct 30),
     ("Feasibility", pct 15), ("Budget", pct 10), ("Sustainability", pct 5)]),
   ("Biotechnology / Life Sciences",
    [("Objectives", pct 10), ("Methodology", pct 30), ("Innovation", pct 20),
     ("Feasibility", pct 25), ("Budget", pct 10), ("Sustainability", pct 5)]),
   ("Healthcare / Medicine",
    [("Objectives", pct 15), ("Methodology", pct 25), ("Innovation", pct 15),
     ("Feasibility", pct 30), ("Budget", pct 10), ("Sustainability", pct 5)]),
   ("Education / Learning Sciences",
    [("Objectives", pct 25), ("Methodology", pct 20), ("Innovation", pct 10),
     ("Feasibility", pct 25), ("Budget", pct 10), ("Sustainability", pct 10)]),
   ("Environment / Climate / Sustainability",
    [("Objectives", pct 20), ("Methodology", pct 20), ("Innovation", pct 15),
     ("Feasibility", pct 20), ("Budget", pct 10), ("Sustainability", pct 15)]),
   ("Social Sciences / Policy",
    [("Objectives", pct 30), ("Methodology", pct 20), ("Innovation", pct 10),
     ("Feasibility", pct 20), ("Budget", pct 10), ("Sustainability", pct 10)]),
   ("Engineering / Technology",
    [("Objectives", pct 15), ("Methodology", pct 25), ("Innovation", pct 25),
     ("Feasibility", pct 20), ("Budget", pct 10), ("Sustainability", pct 5)]),
   ("Physics / Materials Science",
    [("Objectives", pct 10), ("Methodology", pct 30), ("Innovation", pct 25),
     ("Feasibility", pct 20), ("Budget", pct 10), ("Sustainability", pct 5)]),
   ("Chemistry / Chemical Engineering",
    [("Objectives", pct 10), ("Methodology", pct 30), ("Innovation", pct 20),
     ("Feasibility", pct 25), ("Budget", pct 10), ("Sustainability", pct 5)]),
   ("Agriculture / Food Science",
    [("Objectives", pct 15), ("Methodology", pct 25), ("Innovation", pct 15),
     ("Feasibility", pct 25), ("Budget", pct 10), ("Sustainability", pct 10)]),
   ("Energy / Renewable Resources",
    [("Objectives", pct 20), ("Methodology", pct 20), ("Innovation", pct 20),
     ("Feasibility", pct 20), ("Budget", pct 10), ("Sustainability", pct 10)]),
   ("Economics / Business",
    [("Objectives", pct 25), ("Methodology", pct 20), ("Innovation", pct 10),
     ("Feasibility", pct 25), ("Budget", pct 15), ("Sustainability", pct 5)]),
   ("Arts / Humanities",
    [("Objectives", pct 30), ("Methodology", pct 15), ("Innovation", pct 20),
     ("Feasibility", pct 20), ("Budget", pct 10), ("Sustainability", pct 5)]),
   ("Psychology / Behavioral Sciences",
    [("Objectives", pct 20), ("Methodology", pct 30), ("Innovation", pct 10),
     ("Feasibility", pct 25), ("Budget", pct 10), ("Sustainability", pct 5)]),
   ("Urban Planning / Architecture",
    [("Objectives", pct 20), ("Methodology", pct 20), ("Innovation", pct 15),
     ("Feasibility", pct 25), ("Budget", pct 10), ("Sustainability", pct 10)]),
   ("Data Science / Statistics",
    [("Objectives", pct 15), ("Methodology", pct 30), ("Innovation", pct 20),
     ("Feasibility", pct 20), ("Budget", pct 10), ("Sustainability", pct 5)]),
   ("Cybersecurity / Information Security",
    [("Objectives", pct 15), ("Methodology", pct 25), ("Innovation", pct 25),
     ("Feasibility", pct 20), ("Budget", pct 10), ("Sustainability", pct 5)]),
   ("Public Health / Epidemiology",
    [("Objectives", pct 20), ("Methodology", pct 25), ("Innovation", pct 10),
     ("Feasibility", pct 30), ("Budget", pct 10), ("Sustainability", pct 5)]),
   ("Space Science / Astronomy",
    [("Objectives", pct 15), ("Methodology", pct 30), ("Innovation", pct 25),
     ("Feasibility", pct 15), ("Budget", pct 10), ("Sustainability", pct 5)]),
   ("Marine Biology / Oceanography",
    [("Objectives", pct 15), ("Methodology", pct 25), ("Innovation", pct 15),
     ("Feasibility", pct 25), ("Budget", pct 10), ("Sustainability", pct 10)]),
   ("Neuroscience / Cognitive Science",
    [("Objectives", pct 10), ("Methodology", pct 35), ("Innovation", pct 20),
     ("Feasibility", pct 20), ("Budget", pct 10), ("Sustainability", pct 5)])]

/-- Numeric score of a section entry: `score_data.get("score", 0)` when the
entry is a dict, the entry itself otherwise (domain_weights.py lines
196–199). -/
def sectionScoreVal (v : Json) : Json :=
  match v with
  | .obj o => Json.findD o "score" (.num 0)
  | _ => v

/-- The weight table used by `compute_section_weighted_score`: the domain
row if the domain is known, else equal weights `1.0 / len(scores)` over the
present sections (domain_weights.py lines 184–188). -/
def sectionWeights (scores : List (String × Json)) (domain : String) :
    List (String × Q) :=
  match DOMAIN_WEIGHTS.find? (fun p => p.1 == domain) with
  | some p => p.2
  | none => scores.map (fun p => (p.1, Q.div 1 (Q.ofNat scores.length)))

/-- One iteration of the weighted-sum loop (domain_weights.py lines
193–204): criteria absent from the weight table are skipped. -/
def sectionStep (weights : List (String × Q)) (acc : Q × Q)
    (entry : String × Json) : Except PyErr (Q × Q) :=
  match weights.find? (fun p => p.1 == entry.1) with
  | some w => do
    let score ← Json.asNum (sectionScoreVal entry.2)
    pure (acc.1.add (score.mul w.2), acc.2.add w.2)
  | none => pure acc

/-- `compute_section_weighted_score` (domain_weights.py lines 173–218). -/
def compute_section_weighted_score (scores : List (String × Json))
    (domain : String) : Except PyErr Q := do
  let weights := sectionWeights scores domain
  let (weightedSum, totalWeight) ←
    scores.foldlM (sectionStep weights) ((0 : Q), (0 : Q))
  if Q.ltB 0 totalWeight then
    pure (weightedSum.div totalWeight)
  else do
    let scoreValues ← scores.mapM (fun p => Json.asNum (sectionScoreVal p.2))
    if scoreValues.isEmpty then pure 0
    else pure ((scoreValues.foldl Q.add 0).div (Q.ofNat scoreValues.length))

/-- `compute_critique_average` (domain_weights.py lines 221–238). -/
def compute_critique_average (critique_domains : List Json) : Except PyErr Q :=
  if critique_domains.isEmpty then pure 0
  else do
    let scoreVals := critique_domains.filterMap (fun d =>
      match d with
      | .obj kvs =>
        if Json.hasKey kvs "score" then some (Json.findD kvs "score" .null)
        else none
      | _ => none)
    if scoreVals.isEmpty then pure 0
    else do
      let total ← Json.sumNums scoreVals
      pure (total.div (Q.ofNat scoreVals.length))

/-- `compute_weighted_score` (domain_weights.py lines 241–281): blends the
domain-weighted section score (60%) with the critique average (40%); with no
critique data it returns the section score alone.  The section-scores dict is
received as a dynamic value (the pipeline passes `scores["scores"]`, which
need not be a dict). -/
def compute_weighted_score (scores : Json) (domain : String)
    (critique_domains : List Json) : Except PyErr Q := do
  let kvs ←
    match scores with
    | .obj kvs => pure kvs
    | _ => throw (.attributeError "object has no attribute items")
  let section_score ← compute_section_weighted_score kvs domain
  if critique_domains.isEmpty then pure section_score
  else do
    let critique_score ← compute_critique_average critique_domains
    pure ((section_score.mul (pct 60)).add (critique_score.mul (pct 40)))

/-!
## Critique domain scores (`backend/evaluation_pipeline.py` lines 39–105)
-/

/-- The fixed critique dimensions, in iteration order. -/
def critiqueDomainMap : List (String × String) :=
  [("scientific_critique", "Scientific"),
   ("practical_critique", "Practical"),
   ("language_critique", "Language"),
   ("context_critique", "Context"),
   ("persuasiveness_critique", "Persuasiveness"),
   ("ethical_critique", "Ethical"),
   ("innovation_critique", "Innovation")]

/-- Score of one critique dimension given the average section score: the
default branch for a missing/falsy/non-dict critique, otherwise penalties of
0.5 per issue and 0.2 per recommendation, clamped to [0, 10] and rounded to
one decimal. -/
def critiqueDimensionScore (avg : Q) (domainCritique : Json) : Q :=
  match domainCritique with
  | .obj dkvs =>
    if dkvs.isEmpty then avg
    else
      let issues := Json.findD dkvs "issues" (.arr [])
      let recs := Json.findD dkvs "recommendations" (.arr [])
      let issueCount := match issues with | .arr xs => xs.length | _ => 0
      let recCount := match recs with | .arr xs => xs.length | _ => 0
      let issuePenalty := (Q.ofNat issueCount).mul ⟨5, 10⟩
      let recPenalty := (Q.ofNat recCount).mul ⟨2, 10⟩
      ((Q.maxQ 0 (Q.minQ 10 ((avg.sub issuePenalty).sub recPenalty)))).roundTo 1
  | _ => avg

/-- Average of the extracted section scores, 6.0 when there are none
(evaluation_pipeline.py line 71; the conditional expression evaluates the
sum only for a non-empty list). -/
def sectionAvg (sectionVals : List Json) : Except PyErr Q :=
  if sectionVals.isEmpty then pure (⟨6, 1⟩ : Q)
  else do
    let total ← Json.sumNums sectionVals
    pure (total.div (Q.ofNat sectionVals.length))

/-- `build_critique_domain_scores` (evaluation_pipeline.py lines 39–105). -/
def build_critique_domain_scores (critique : Json) (scores : Json) :
    Except PyErr (List Json) := do
  let scoresField ← Json.pyGetD scores "scores" (.obj [])
  let vals ← Json.pyValues scoresField
  let sectionVals := vals.filterMap (fun v =>
    match v with
    | .obj kvs => some (Json.findD kvs "score" (.num 0))
    | _ => none)
  let avg ← sectionAvg sectionVals
  let ckvs ←
    match critique with
    | .obj kvs => pure kvs
    | _ => throw (.attributeError "object has no attribute get")
  pure (critiqueDomainMap.map (fun dims =>
    Json.obj [("domain", .str dims.2),
              ("score", .num (critiqueDimensionScore avg
                (Json.findD ckvs dims.1 (.obj []))))]))


/-- Well-formed section-score entries: every section carries a numeric score
in [0, 10] (the `ScoreBundle` invariant of the spec). -/
def SectionEntriesOk (scores : List (String × Json)) : Prop :=
  ∀ p ∈ scores, ∃ q : Q,
    sectionScoreVal p.2 = .num q ∧ q.Pos ∧ 0 ≤ q.toRat ∧ q.toRat ≤ 10

/-- Well-formed critique-score entries: each is a dict with a numeric
`"score"` in [0, 10] (the shape `build_critique_domain_scores` produces). -/
def CritiqueEntriesOk (cds : List Json) : Prop :=
  ∀ d ∈ cds, ∃ kvs q, d = Json.obj kvs ∧ Json.hasKey kvs "score" = true ∧
    Json.findD kvs "score" .null = .num q ∧ q.Pos ∧ 0 ≤ q.toRat ∧ q.toRat ≤ 10

/-- The rational score carried by a critique entry (0 for ill-formed ones;
used only under `CritiqueEntriesOk`). -/
def critiqueScoreRat (d : Json) : ℚ :=
  match d with
  | .obj kvs =>
    match Json.findD kvs "score" .null with
    | .num q => q.toRat
    | _ => 0
  | _ => 0

/-- Modelled from the spec: "rounded to two decimal places". -/
def specRound2 (q : ℚ) : ℚ := ((round (q * 100) : ℤ) : ℚ) / 100

/-- Modelled from the spec (§4.5 and claim C2): the blended final score as
the spec words it — `0.6 × section + 0.4 × critique mean`, clamped to
[0, 10], rounded to two decimal places. -/
def specBlend (sec mean : ℚ) : ℚ :=
  specRound2 (min 10 (max 0 (6 / 10 * sec + 4 / 10 * mean)))


/-- The spec's blend scenario: section scores `{"Objectives": 8,
"Methodology": 6}`. -/
def blendScenarioSections : List (String × Json) :=
  [("Objectives", .obj [("score", .num ⟨8, 1⟩)]),
   ("Methodology", .obj [("score", .num ⟨6, 1⟩)])]

/-- The spec's blend scenario: critique scores `{"Scientific": 7,
"Practical": 9}`. -/
def blendScenarioCritique : List Json :=
  [.obj [("domain", .str "Scientific"), ("score", .num ⟨7, 1⟩)],
   .obj [("domain", .str "Practical"), ("score", .num ⟨9, 1⟩)]]

/-- Inputs refuting the spec's claim that the blend is rounded to two
decimal places: one section scored 0 and critique scores 1, 1, 2. -/
def blendCexSections : List (String × Json) :=
  [("Objectives", .obj [("score", .num ⟨0, 1⟩)])]

/-- Critique list for the rounding counterexample (mean 4/3). -/
def blendCexCritique : List Json :=
  [.obj [("domain", .str "Scientific"), ("score", .num ⟨1, 1⟩)],
   .obj [("domain", .str "Practical"), ("score", .num ⟨1, 1⟩)],
   .obj [("domain", .str "Language"), ("score", .num ⟨2, 1⟩)]]


/-- Round-half-even on rationals (reference form of Python's `round`). -/
def roundHEQ (y : ℚ) : ℤ :=
  if y - ⌊y⌋ < 1 / 2 then ⌊y⌋
  else if 1 / 2 < y - ⌊y⌋ then ⌊y⌋ + 1
  else if Even ⌊y⌋ then ⌊y⌋ else ⌊y⌋ + 1

/-- Reference form of rounding to one decimal place. -/
def specRound1 (q : ℚ) : ℚ := ((roundHEQ (q * 10) : ℤ) : ℚ) / 10

/-- The section-score values `build_critique_domain_scores` extracts from
`scores["scores"].values()`. -/
def sectionValsOf (svkvs : List (String × Json)) : List Json :=
  (svkvs.map Prod.snd).filterMap (fun v =>
    match v with
    | .obj kvs => some (Json.findD kvs "score" (.num 0))
    | _ => none)

/-- Rational denoted by a numeric JSON value (0 otherwise). -/
def numRatOf (v : Json) : ℚ :=
  match v with
  | .num q => q.toRat
  | _ => 0

/-- Number of issues a critique-dimension dict lists. -/
def issueCountOf (dkvs : List (String × Json)) : Nat :=
  match Json.findD dkvs "issues" (.arr []) with
  | .arr xs => xs.length
  | _ => 0

/-- Number of recommendations a critique-dimension dict lists. -/
def recCountOf (dkvs : List (String × Json)) : Nat :=
  match Json.findD dkvs "recommendations" (.arr []) with
  | .arr xs => xs.length
  | _ => 0


/-- Concrete critique input exercising `build_critique_domain_scores`: only
the scientific dimension has critique data (1 issue, 2 recommendations). -/
def c10Critique : List (String × Json) :=
  [("scientific_critique", .obj [("issues", .arr [.str "a"]),
    ("recommendations", .arr [.str "b", .str "c"])])]

/-- Concrete scoring input for the same exercise (sections 8 and 6). -/
def c10Scores : List (String × Json) :=
  [("scores", .obj [("Objectives", .obj [("score", .num ⟨8, 1⟩)]),
                    ("Methodology", .obj [("score", .num ⟨6, 1⟩)])])]

/-- The section entries of `c10Scores`. -/
def c10ScoresInner : List (String × Json) :=
  [("Objectives", .obj [("score", .num ⟨8, 1⟩)]),
   ("Methodology", .obj [("score", .num ⟨6, 1⟩)])]


/-!
## Status broadcaster (`backend/websocket_manager.py`)

`WebSocketManager` keeps per-session observer sets and pending-message
buffers.  Observers are modelled by an abstract type `ω` with decidable
equality (sets become duplicate-free lists) and messages by `μ`.  Whether
`websocket.send_json` succeeds or raises a disconnection-type error
(`WebSocketDisconnect`/`RuntimeError`, the kinds the code catches) is
modelled by a `sendOk : ω → μ → Bool` oracle; the async lock is not
modelled (the claims are about the sequential semantics of each call).
-/

/-- Set the value bound to a key in an association list, appending the
binding when absent (`defaultdict` access). -/
def updateAssoc {α : Type} (l : List (String × α)) (k : String) (v : α) :
    List (String × α) :=
  if l.any (fun p => p.1 == k) then
    l.map (fun p => if p.1 == k then (k, v) else p)
  else l ++ [(k, v)]

/-- Remove a key (`dict.pop(k, default)`). -/
def popAssoc {α : Type} (l : List (String × α)) (k : String) :
    List (String × α) :=
  l.filter (fun p => !(p.1 == k))

/-- The state of `WebSocketManager`: `_connections` and
`_pending_messages`. -/
structure WSManager (ω μ : Type) where
  connections : List (String × List ω)
  pending : List (String × List μ)

namespace WSManager

variable {ω μ : Type}

/-- `self._connections[session_id]` (empty set when absent). -/
def getConns (m : WSManager ω μ) (sid : String) : List ω :=
  match m.connections.find? (fun p => p.1 == sid) with
  | some p => p.2
  | none => []

/-- `self._pending_messages[session_id]` (empty list when absent). -/
def getPending (m : WSManager ω μ) (sid : String) : List μ :=
  match m.pending.find? (fun p => p.1 == sid) with
  | some p => p.2
  | none => []

/-- `connect` (websocket_manager.py lines 19–25): add the observer to the
session's set, pop the session's buffer, then flush each buffered message
through `_safe_send` (delivery failures are swallowed).  Returns the new
state and the messages actually delivered to the new observer, in order. -/
def connect [DecidableEq ω] (sendOk : ω → μ → Bool) (m : WSManager ω μ)
    (sid : String) (ws : ω) : WSManager ω μ × List μ :=
  let conns := m.getConns sid
  let conns' := if conns.contains ws then conns else conns ++ [ws]
  let pendingMsgs := m.getPending sid
  (⟨updateAssoc m.connections sid conns', popAssoc m.pending sid⟩,
   pendingMsgs.filter (fun msg => sendOk ws msg))

/-- `disconnect` (lines 27–33): remove one observer; the buffer is kept. -/
def disconnect [DecidableEq ω] (m : WSManager ω μ) (sid : String) (ws : ω) :
    WSManager ω μ :=
  let conns := m.getConns sid
  if conns.contains ws then
    let conns' := conns.erase ws
    if conns'.isEmpty then ⟨popAssoc m.connections sid, m.pending⟩
    else ⟨updateAssoc m.connections sid conns', m.pending⟩
  else m

/-- `send` (lines 42–63): with no observers the message is buffered;
otherwise it is attempted to every observer in the snapshot, observers
whose send raised a disconnection error are collected and then removed.
(The `if connections := self._connections.get(...)` walrus guard on lines
61–63 is dead code — a non-empty set is truthy, an empty one falsy — so the
emptied set is left in place; it changes no observable behaviour modelled
here.)  Returns the new state and the observers that received the message;
the function itself raises nothing. -/
def send [DecidableEq ω] (sendOk : ω → μ → Bool) (m : WSManager ω μ)
    (sid : String) (msg : μ) : WSManager ω μ × List ω :=
  let conns := m.getConns sid
  if conns.isEmpty then
    (⟨m.connections, updateAssoc m.pending sid (m.getPending sid ++ [msg])⟩, [])
  else
    let delivered := conns.filter (fun ws => sendOk ws msg)
    let toRemove := conns.filter (fun ws => !(sendOk ws msg))
    let m' :=
      if toRemove.isEmpty then m
      else
        toRemove.foldl (fun acc ws =>
          let cs := acc.getConns sid
          if cs.contains ws then
            ⟨updateAssoc acc.connections sid (cs.erase ws), acc.pending⟩
          else acc) m
    (m', delivered)

/-- `close_session` (lines 65–74): pop the session's observer set, close
each observer, then pop the session's buffer.  Returns the new state and
the observers that were disconnected. -/
def close_session (m : WSManager ω μ) (sid : String) :
    WSManager ω μ × List ω :=
  (⟨popAssoc m.connections sid, popAssoc m.pending sid⟩, m.getConns sid)

/-- Publishing a sequence of events (repeated `send`), keeping the state. -/
def publishAll [DecidableEq ω] (sendOk : ω → μ → Bool) (m : WSManager ω μ)
    (sid : String) (evs : List μ) : WSManager ω μ :=
  evs.foldl (fun acc e => (send sendOk acc sid e).1) m

end WSManager


/-!
## Pipeline orchestrator (`backend/evaluation_pipeline.py`)

Collaborators (text extraction, vector store, model calls) are modelled by
their outcomes: each is an `Except PyErr` value (the budget agent, whose
non-invocation is part of a claim, stays a function of its inputs).
Collaborator outputs are typed by their contracts; model responses that the
pipeline itself inspects dynamically (scoring, critique, budget, decision)
stay `Json`.  `set_deterministic_mode`, logging, and the vector-store
cleanup are effect-free in the model; timestamps are omitted.
-/

/-- A page extracted from the proposal document. -/
structure Page where
  page_content : String
deriving Repr

/-- A retrieved chunk (`vs["ask"](...)` result entry; `doc.get("text", "")`). -/
structure Chunk where
  text : String
deriving Repr

/-- The per-run vector store, reduced to the query the pipeline issues
during the budget stage. -/
structure VS where
  askBudget : List Chunk
deriving Repr

/-- One section of the structured summary (`SectionedSummary` contract). -/
structure SummSection where
  text : String
  notes : List String
  references : List String
deriving Repr

/-- The `budget_input` dict (evaluation_pipeline.py lines 322–330). -/
structure BudgetInput where
  text : String
  notes : List String
  references : List String
  score : Json
  summary : Json
  strengths : Json
  weaknesses : Json
deriving Repr

/-- The dict `format_evaluation_response` returns (lines 563–577). -/
structure Response where
  decision : Json
  overall_score : Q
  domain : String
  scores : List Json
  critique_domains : List Json
  full_critique : Json
  budget_analysis : Json
  section_scores : List Json
  summary : List (String × SummSection)
  plagiarism_check : Option Json

/-- One stage event pushed to the status callback (timestamp omitted). -/
structure Ev where
  stageIndex : Nat
  stageKey : String
  label : String
  status : String
  progress : Nat
  message : String
deriving Repr, DecidableEq

/-- `PIPELINE_STAGES` (lines 27–36). -/
def PIPELINE_STAGES : List (String × String) :=
  [("document_ingest", "Parsing document and detecting sections"),
   ("domain_detection", "Identifying research domain context"),
   ("summarisation", "Summarising narrative and metadata"),
   ("scoring", "Scoring against rubric benchmarks"),
   ("critique", "Reviewing critique and risk signals"),
   ("budget", "Auditing budget structure and anomalies"),
   ("compliance", "Validating compliance and plagiarism scan"),
   ("finalisation", "Compiling final recommendation package")]

/-- `emit_stage` (lines 135–170): stage metadata with an out-of-range
fallback, progress `int((i/N)*100)` clamped to [0,99] for `started` and
`int(((i+1)/N)*100)` clamped to [1,100] otherwise (exact in binary floating
point for these magnitudes, so `int(⌊·⌋)` is natural division), then the
payload.  Callback exceptions are swallowed and the callback's absence only
suppresses delivery, so the model always records the event. -/
def emit_stage (stageIndex : Nat) (status : String) (message : Option String)
    (progressOverride : Option Nat) : Ev :=
  let totalStages := PIPELINE_STAGES.length
  let meta :=
    match PIPELINE_STAGES.get? stageIndex with
    | some m => m
    | none => ("stage-" ++ toString stageIndex, "Pipeline")
  let progressValue :=
    match progressOverride with
    | none =>
      if status == "started" then
        max 0 (min 99 ((stageIndex * 100) / totalStages))
      else
        max 1 (min 100 (((stageIndex + 1) * 100) / totalStages))
    | some p => max 0 (min 100 p)
  { stageIndex := stageIndex,
    stageKey := meta.1,
    label := meta.2,
    status := status,
    progress := progressValue,
    message := match message with
      | some m => if m == "" then meta.2 else m
      | none => meta.2 }

/-- `budget_keywords` (line 274). -/
def budgetKeywords : List String :=
  ["budget", "cost", "$", "expense", "funding", "financial", "price",
   "total", "personnel", "equipment", "travel", "indirect"]

/-- `str.lower()` for the ASCII text these checks see (a kernel-reducible
stand-in for `String.toLower`, whose bundled recursion does not unfold
under `rfl`). -/
def strLower (s : String) : String := String.mk (s.toList.map Char.toLower)

/-- Does a raw page look budget-related (lines 277–284): at least two
keyword hits or at least three dollar signs? -/
def pageMatchesBudget (page : Page) : Bool :=
  let pageText := strLower page.page_content
  let keywordCount := (budgetKeywords.filter (fun kw => strHasSub kw pageText)).length
  let dollarCount := pageText.toList.count '$'
  2 ≤ keywordCount || 3 ≤ dollarCount

/-- Strategy 1 (lines 267–270): the summariser's Budget section text. -/
def budgetTier1 (summary : List (String × SummSection)) : String :=
  match summary.find? (fun p => p.1 == "Budget") with
  | some p => p.2.text
  | none => ""

/-- Strategy 2 (lines 272–297): scan raw pages; if any match, a weak
(<100 chars) summary text is REPLACED by the raw extraction, otherwise the
raw extraction is appended with a separator. -/
def budgetTier2 (budgetText : String) (pages : List Page) : String :=
  let budgetPagesContent := (pages.filter pageMatchesBudget).map
    (fun p => p.page_content)
  if budgetPagesContent.isEmpty then budgetText
  else
    let rawBudgetText := String.intercalate "\n\n" budgetPagesContent
    if budgetText.length < 100 then rawBudgetText
    else budgetText ++ "\n\n--- Additional Budget Details from Pages ---\n\n" ++
      rawBudgetText

/-- Strategy 3 (lines 299–309): vector-store retrieval; the top 10 matching
chunks are appended when their joined text exceeds 100 chars. -/
def budgetTier3 (budgetText : String) (chunks : List Chunk) : String :=
  let budgetChunks := (chunks.filter (fun d =>
    ["$", "budget", "cost", "expense"].any
      (fun kw => strHasSub kw (strLower d.text)))).map (fun d => d.text)
  if budgetChunks.isEmpty then budgetText
  else
    let vectorBudgetText := String.intercalate "\n\n" (budgetChunks.take 10)
    if 100 < vectorBudgetText.length then
      budgetText ++ "\n\n--- Budget from Vectorstore ---\n\n" ++ vectorBudgetText
    else budgetText

/-- Strategy 4 (lines 311–319): only when the accumulated text is still
short (<200 chars), append every other summary section that mentions a
budget keyword. -/
def budgetTier4 (budgetText : String) (summary : List (String × SummSection)) :
    String :=
  if budgetText.length < 200 then
    summary.foldl (fun acc p =>
      if p.1 != "Budget" &&
          budgetKeywords.any (fun kw => strHasSub kw (strLower p.2.text)) then
        acc ++ "\n\n--- From " ++ p.1 ++ " Section ---\n" ++ p.2.text
      else acc) budgetText
  else budgetText

/-- The four-tier budget-text assembly (lines 267–321), in source order. -/
def assembleBudgetText (summary : List (String × SummSection))
    (pages : List Page) (chunks : List Chunk) : String :=
  budgetTier4 (budgetTier3 (budgetTier2 (budgetTier1 summary) pages) chunks)
    summary

/-- `has_budget_info` (lines 333–336): more than 50 chars and at least one
budget keyword. -/
def hasBudgetInfo (budgetText : String) : Bool :=
  50 < budgetText.length &&
    ["budget", "cost", "$", "expense", "funding", "financial"].any
      (fun kw => strHasSub kw (strLower budgetText))

/-- The deterministic "insufficient budget information" result
(lines 342–350). -/
def insufficientBudgetEval : Json :=
  .obj [("totalBudget", .num 0),
        ("breakdown", .arr []),
        ("flags", .arr [.obj [("type", .str "warning"),
          ("message", .str "No detailed budget information found in the proposal document.")]]),
        ("summary", .str "The proposal does not contain a detailed budget section. Budget information may be missing or in a separate document.")]


/-- Python `float(s)` on a cleaned numeric string: optional sign, digits
with an optional decimal point and exponent (surrounding whitespace
allowed; exotic forms like `inf`/`nan` are not modelled). -/
def pyFloatOfChars (cs : List Char) : Option Q :=
  let cs := (cs.dropWhile (fun c => c == ' ')).reverse.dropWhile
    (fun c => c == ' ') |>.reverse
  let (neg, cs₁) :=
    match cs with
    | '-' :: rest => (true, rest)
    | '+' :: rest => (false, rest)
    | _ => (false, cs)
  let (ip, ipn, cs₂) := Json.takeDigits cs₁ 0 0
  let (mant, scale, ok₁, cs₃) :=
    match cs₂ with
    | '.' :: rest =>
      let (fp, fpn, rest') := Json.takeDigits rest 0 0
      (ip * 10 ^ fpn + fp, fpn, ipn + fpn != 0, rest')
    | _ => (ip, 0, ipn != 0, cs₂)
  if !ok₁ then none
  else
    let base : Q := ⟨(mant : Int), 10 ^ scale⟩
    match cs₃ with
    | [] => some (if neg then ⟨-base.num, base.den⟩ else base)
    | 'e' :: rest =>
      let (eneg, rest₁) :=
        match rest with
        | '-' :: r => (true, r)
        | '+' :: r => (false, r)
        | _ => (false, rest)
      let (ev, evn, rest₂) := Json.takeDigits rest₁ 0 0
      if evn == 0 || !rest₂.isEmpty then none
      else
        let scaled : Q :=
          if eneg then ⟨base.num, base.den * 10 ^ ev⟩
          else ⟨base.num * (10 : Int) ^ ev, base.den⟩
        some (if neg then ⟨-scaled.num, scaled.den⟩ else scaled)
    | _ => none

/-- `float(str)` after the `replace` calls, with failures mapped to 0.0 by
the surrounding `try/except`. -/
def parseMoney (s : String) (strip : List Char) : Q :=
  match pyFloatOfChars (s.toList.filter (fun c => !(strip.contains c))) with
  | some q => q
  | none => 0

/-- Soft coercion of a breakdown amount (lines 374–382): strings are parsed
(falling back to 0.0), `None` becomes 0.0, anything else is left as is. -/
def coerceSoft (v : Json) (strip : List Char) : Json :=
  match v with
  | .str s => .num (parseMoney s strip)
  | .null => .num 0
  | other => other

/-- Replace the value bound to a present key. -/
def setAssoc (kvs : List (String × Json)) (k : String) (v : Json) :
    List (String × Json) :=
  kvs.map (fun p => if p.1 == k then (k, v) else p)

/-- `dict.setdefault(k, v)`. -/
def setdefault (kvs : List (String × Json)) (k : String) (v : Json) :
    List (String × Json) :=
  if Json.hasKey kvs k then kvs else kvs ++ [(k, v)]

/-- Clean one breakdown item (lines 372–401): non-dicts are skipped; the
final `float(...)` coercion raises `TypeError` on residual non-numeric
values, but only when the item is actually appended (truthy category other
than "Unclear"). -/
def cleanBreakdownItem (item : Json) : Except PyErr (Option Json) :=
  match item with
  | .obj kvs => do
    let amount := coerceSoft (Json.findD kvs "amount" (.num 0)) [',', '$']
    let percentage := coerceSoft (Json.findD kvs "percentage" (.num 0)) ['%', ',']
    let category := Json.findD kvs "category" (.str "Unspecified")
    let isUnclear :=
      match category with
      | .str s => s == "Unclear"
      | _ => false
    if Json.truthy category && !isUnclear then do
      let a ← Json.asNum amount
      let p ← Json.asNum percentage
      pure (some (.obj [("category", category), ("amount", .num a),
        ("percentage", .num p)]))
    else pure none
  | _ => pure none

/-- Validation and cleaning of the budget agent's response
(lines 360–414). -/
def normalizeBudgetEvaluation (bev : Json) : Except PyErr Json :=
  match bev with
  | .obj kvs₀ => do
    let kvs₁ := setdefault (setdefault (setdefault (setdefault kvs₀
      "totalBudget" (.num 0)) "breakdown" (.arr [])) "flags" (.arr []))
      "summary" (.str "No budget summary available")
    let kvs₂ ←
      match Json.findD kvs₁ "breakdown" .null with
      | .arr items => do
        let cleaned ← items.mapM cleanBreakdownItem
        pure (setAssoc kvs₁ "breakdown" (.arr (cleaned.filterMap id)))
      | _ => pure kvs₁
    let kvs₃ :=
      match Json.findD kvs₂ "totalBudget" .null with
      | .str s => setAssoc kvs₂ "totalBudget" (.num (parseMoney s [',', '$']))
      | .null => setAssoc kvs₂ "totalBudget" (.num 0)
      | _ => kvs₂
    pure (.obj kvs₃)
  | _ => pure (.obj [("totalBudget", .num 0), ("breakdown", .arr []),
      ("flags", .arr []), ("summary", .str "Budget analysis failed")])

/-- Render a rational with two decimals (Python `f"{x:.2f}"`; rounding
half-even like the float formatting it models). -/
def fmt2 (q : Q) : String :=
  let scaled := roundHalfEvenInt (q.num * 100) q.den
  let whole := Int.fdiv scaled 100
  let rem := (scaled - whole * 100).natAbs
  toString whole ++ "." ++ (if rem < 10 then "0" else "") ++ toString rem

/-- The budget-stage completion message (line 416); the f-string formatting
raises `TypeError` when `totalBudget` is not a number. -/
def budgetMessage (cleaned : Json) : Except PyErr String := do
  let total ← Json.asNum (match cleaned with
    | .obj kvs => Json.findD kvs "totalBudget" .null
    | _ => .null)
  pure ("Budget analysis complete (total $" ++ fmt2 total ++ ")")

/-- How a value renders inside an f-string (only the string case matters to
the claims; other cases are placeholders for `str(v)`). -/
def showJson : Json → String
  | .str s => s
  | .bool b => if b then "True" else "False"
  | .null => "None"
  | .num q => fmt2 q
  | .arr _ => "<list>"
  | .obj _ => "<dict>"

/-- The structure checks on the scoring output (lines 239–249): non-dicts
are rejected, flat section structures are wrapped, anything else raises
`KeyError`. -/
def validateScores (scores : Json) : Except PyErr Json :=
  match scores with
  | .obj kvs =>
    if Json.hasKey kvs "scores" then pure (.obj kvs)
    else if ["Objectives", "Methodology", "Budget"].any
        (fun k => Json.hasKey kvs k) then
      pure (.obj [("scores", .obj kvs), ("overall_summary", .str "")])
    else throw (.keyError "Scoring agent response missing scores key")
  | _ => throw (.valueError "Scoring agent returned non-dict type")

/-- Lines 251–253: `scores["scores"]` must be truthy and non-empty (the
`len` call raises `TypeError` on unsized values). -/
def extractScoresVal (scores : Json) : Except PyErr Json := do
  let v :=
    match scores with
    | .obj kvs => Json.findD kvs "scores" .null
    | _ => .null
  if !Json.truthy v then
    throw (.valueError "Scoring agent returned empty scores dictionary.")
  else do
    let n ← Json.pyLen v
    if n == 0 then
      throw (.valueError "Scoring agent returned empty scores dictionary.")
    else pure v

/-- The `budget_input` dict (lines 322–330); the chained `.get` calls raise
`AttributeError` when an intermediate value is not a dict. -/
def buildBudgetInput (budgetText : String)
    (summary : List (String × SummSection)) (scores : Json) :
    Except PyErr BudgetInput := do
  let budgetSection :=
    match summary.find? (fun p => p.1 == "Budget") with
    | some p => p.2
    | none => ⟨"", [], []⟩
  let scoresField ← Json.pyGetD scores "scores" (.obj [])
  let budgetScores ← Json.pyGetD scoresField "Budget" (.obj [])
  let score ← Json.pyGetD budgetScores "score" (.num 5)
  let summaryJ ← Json.pyGetD budgetScores "summary" (.str "Budget not analyzed")
  let strengths ← Json.pyGetD budgetScores "strengths" (.arr [])
  let weaknesses ← Json.pyGetD budgetScores "weaknesses" (.arr [])
  pure ⟨budgetText, budgetSection.notes, budgetSection.references, score,
    summaryJ, strengths, weaknesses⟩


/-!
## Response formatting (`backend/evaluation_pipeline.py` lines 475–578)
-/

/-- `format_section_name` (lines 480–485): insert a space between a
lowercase letter and the uppercase letter that follows it. -/
def spaceCamelAux : Option Char → List Char → List Char
  | _, [] => []
  | prev, c :: rest =>
    if (match prev with | some p => p.isLower | none => false) && c.isUpper then
      ' ' :: c :: spaceCamelAux (some c) rest
    else c :: spaceCamelAux (some c) rest

/-- `format_section_name` on strings. -/
def spaceCamel (s : String) : String :=
  String.mk (spaceCamelAux none s.toList)

/-- Python `not s.strip()`: the string is all whitespace. -/
def pyStrBlank (s : String) : Bool :=
  s.toList.all (fun c =>
    c == ' ' || c == '\t' || c == '\n' || c == '\r' || c == '\x0b' || c == '\x0c')

/-- One iteration of the section loop (lines 490–510): yields the
`section_scores` entry and the `score_details` entry; the `.get` calls
raise `AttributeError` when the section value is not a dict. -/
def sectionEntryFormat (p : String × Json) : Except PyErr (Json × Json) :=
  match p.2 with
  | .obj skvs =>
    let formattedName := spaceCamel p.1
    let strengths :=
      match Json.findD skvs "strengths" .null with
      | .arr xs =>
        if xs.isEmpty then Json.arr [.str "No standout strengths recorded."]
        else Json.arr xs
      | _ => Json.arr [.str "No standout strengths recorded."]
    let weaknesses :=
      match Json.findD skvs "weaknesses" .null with
      | .arr xs =>
        if xs.isEmpty then Json.arr [.str "No critical weaknesses identified."]
        else Json.arr xs
      | _ => Json.arr [.str "No critical weaknesses identified."]
    let score := Json.findD skvs "score" (.num 0)
    .ok (.obj [("section", .str formattedName), ("score", score)],
         .obj [("category", .str formattedName), ("score", score),
               ("maxScore", .num 10), ("strengths", strengths),
               ("weaknesses", weaknesses)])
  | _ => .error (.attributeError "object has no attribute get")

/-- Issue entries contributed by one critique dimension (lines 547–554):
only string issues are kept. -/
def critiqueIssuesFor (display : String) (issues : List Json) : List Json :=
  issues.filterMap (fun i =>
    match i with
    | .str s => some (.obj [("severity", .str "high"),
        ("category", .str display), ("domain", .str display),
        ("description", .str s)])
    | _ => none)

/-- Recommendation entries contributed by one critique dimension
(lines 555–561). -/
def critiqueRecsFor (display : String) (recs : List Json) : List Json :=
  recs.filterMap (fun r =>
    match r with
    | .str s => some (.obj [("priority", .str "medium"),
        ("domain", .str display), ("recommendation", .str s)])
    | _ => none)

/-- Issues and recommendations of one critique dimension (lines 536–561):
falsy or non-dict dimension critiques are skipped; the `for` loops raise
`TypeError` when `issues`/`recommendations` are not iterable, and the
unguarded `critique.get` raises `AttributeError` on non-dict critiques. -/
def critiqueDomainIR (critique : Json) (dims : String × String) :
    Except PyErr (List Json × List Json) := do
  let dc ← Json.pyGetD critique dims.1 (.obj [])
  match dc with
  | .obj dkvs =>
    if dkvs.isEmpty then pure ([], [])
    else do
      let issues ← Json.pyIter (Json.findD dkvs "issues" (.arr []))
      let recs ← Json.pyIter (Json.findD dkvs "recommendations" (.arr []))
      pure (critiqueIssuesFor dims.2 issues, critiqueRecsFor dims.2 recs)
  | _ => pure ([], [])

/-- `format_evaluation_response` (lines 475–578). -/
def format_evaluation_response (summary : List (String × SummSection))
    (scores : Json) (critique : Json) (budget_eval : Json) (decision : Json)
    (final_weighted_score : Q) (domain : String)
    (critique_domain_scores : List Json) (plagiarism_result : Option Json) :
    Except PyErr Response := do
  let scoresField ← Json.pyGetD scores "scores" (.obj [])
  let entries ←
    match scoresField with
    | .obj kvs => Except.ok kvs
    | _ => Except.error (.attributeError "object has no attribute items")
  let pairs ← entries.mapM sectionEntryFormat
  let overallFeedback :=
    match (match critique with
           | .obj ckvs => Json.findD ckvs "overall_feedback" .null
           | _ => .null) with
    | .str s => if pyStrBlank s then "No executive summary was generated." else s
    | _ => "No executive summary was generated."
  let irs ← critiqueDomainMap.mapM (critiqueDomainIR critique)
  let formattedCritique := Json.obj
    [("summary", .str overallFeedback),
     ("issues", .arr (irs.foldr (fun p acc => p.1 ++ acc) [])),
     ("recommendations", .arr (irs.foldr (fun p acc => p.2 ++ acc) []))]
  let decisionVal ← Json.pyGetD decision "decision" (.str "CONDITIONALLY ACCEPT")
  pure { decision := decisionVal,
         overall_score := final_weighted_score,
         domain := domain,
         scores := pairs.map Prod.snd,
         critique_domains := critique_domain_scores,
         full_critique := formattedCritique,
         budget_analysis := budget_eval,
         section_scores := pairs.map Prod.fst,
         summary := summary,
         plagiarism_check :=
           match plagiarism_result with
           | some p => if Json.truthy p then some p else none
           | none => none }

/-!
## The orchestrator (`backend/evaluation_pipeline.py` lines 108–472)

External collaborators (document loader, vector store, LLM agents) are
modelled as fallible functions supplied by the caller; `run_grant_scoring`'s
internal recovery is verified separately and its overall result is a
collaborator value here.
-/

/-- The collaborators `run_full_evaluation` invokes, in pipeline order. -/
structure Collab where
  input_agent : Except PyErr (List Page)
  vectorstore_agent : List Page → Except PyErr VS
  classify_domain : String → Except PyErr String
  run_summarizer_extended : VS → String → Except PyErr (List (String × SummSection))
  run_grant_scoring : List (String × SummSection) → String → Except PyErr Json
  run_grant_critique : Json → List (String × SummSection) → String → Except PyErr Json
  run_budget_agent : BudgetInput → Q → String → Except PyErr Json
  detect_plagiarism : String → Except PyErr Json
  run_final_decision_agent : List (String × SummSection) → Json → Json → Json →
    Q → String → Except PyErr Json

/-- Domain resolution (lines 198–206): an override that is truthy (a
non-empty string) is used directly, otherwise the classifier runs on the
joined page text; each arm fixes the stage-1 `completed` message. -/
def domainStep (c : Collab) (override_domain : Option String)
    (pages : List Page) : Except PyErr (String × String) :=
  match override_domain with
  | some od =>
    if od == "" then
      match c.classify_domain (String.intercalate " " (pages.map Page.page_content)) with
      | .error e => .error e
      | .ok domain => .ok (domain, "Detected domain: " ++ domain)
    else .ok (od, "Domain locked to " ++ od)
  | none =>
    match c.classify_domain (String.intercalate " " (pages.map Page.page_content)) with
    | .error e => .error e
    | .ok domain => .ok (domain, "Detected domain: " ++ domain)

/-- The budget stage body (lines 322–416): assemble the four-tier text,
build `budget_input` (line 322, before the sufficiency check), then either
short-circuit with the deterministic insufficient-information result or
invoke the budget agent and clean its output; the second component is the
stage-completion message. -/
def budgetStage (c : Collab) (max_budget : Q) (domain : String)
    (summary : List (String × SummSection)) (pages : List Page)
    (chunks : List Chunk) (scores : Json) : Except PyErr (Json × String) :=
  let budgetText := assembleBudgetText summary pages chunks
  match buildBudgetInput budgetText summary scores with
  | .error e => .error e
  | .ok budgetInput =>
    if !hasBudgetInfo budgetText then
      .ok (insufficientBudgetEval, "Budget information unavailable; issued warning")
    else
      match c.run_budget_agent budgetInput max_budget domain with
      | .error e => .error e
      | .ok bev =>
        match normalizeBudgetEvaluation bev with
        | .error e => .error e
        | .ok cleaned =>
          match budgetMessage cleaned with
          | .error e => .error e
          | .ok msg => .ok (cleaned, msg)

/-- The compliance stage body (lines 420–441): failures of the plagiarism
check (including the `.get` on a non-dict result) are caught and turned
into an error-shaped result; when the check is disabled the result stays
`None`. -/
def plagiarismStep (c : Collab) (check_plagiarism : Bool)
    (pages : List Page) : Option Json × String :=
  if check_plagiarism then
    match c.detect_plagiarism (String.intercalate " " (pages.map Page.page_content)) with
    | .ok r =>
      match Json.pyGetD r "risk_level" (.str "UNKNOWN") with
      | .ok risk => (some r, "Plagiarism check completed (risk " ++ showJson risk ++ ")")
      | .error e =>
        (some (.obj [("error", .str (PyErr.msg e)), ("risk_level", .str "UNKNOWN")]),
         "Plagiarism check encountered an error")
    | .error e =>
      (some (.obj [("error", .str (PyErr.msg e)), ("risk_level", .str "UNKNOWN")]),
       "Plagiarism check encountered an error")
  else (none, "Plagiarism scan skipped (disabled)")

/-- `run_full_evaluation` (lines 108–472): the emitted stage events in
order, paired with the returned response or the exception that aborted the
run.  An exception escaping a stage propagates immediately (there is no
handler around the collaborator calls), so the trace stops at the last
event emitted before the failure and no `errored` status is ever
produced. -/
def run_full_evaluation (c : Collab) (max_budget : Q)
    (override_domain : Option String) (check_plagiarism : Bool) :
    List Ev × Except PyErr Response :=
  let e0s := emit_stage 0 "started" (some "Extracting proposal pages") none
  match c.input_agent with
  | .error e => ([e0s], .error e)
  | .ok pages =>
    if pages.isEmpty then
      ([e0s], .error (.valueError "Document extraction failed."))
    else
      let e0c := emit_stage 0 "completed"
        (some ("Loaded " ++ toString pages.length ++ " pages")) none
      let e1s := emit_stage 1 "started"
        (some "Building semantic index and preparing domain detection") none
      match c.vectorstore_agent pages with
      | .error e => ([e0s, e0c, e1s], .error e)
      | .ok vs =>
        match domainStep c override_domain pages with
        | .error e => ([e0s, e0c, e1s], .error e)
        | .ok dr =>
          let domain := dr.1
          let e1c := emit_stage 1 "completed" (some dr.2) none
          let e2s := emit_stage 2 "started" (some "Generating structured summary") none
          match c.run_summarizer_extended vs domain with
          | .error e => ([e0s, e0c, e1s, e1c, e2s], .error e)
          | .ok summary =>
            let e2c := emit_stage 2 "completed" (some "Summary generated") none
            let e3s := emit_stage 3 "started" (some "Scoring proposal against rubric") none
            match c.run_grant_scoring summary domain with
            | .error e => ([e0s, e0c, e1s, e1c, e2s, e2c, e3s], .error e)
            | .ok scores0 =>
              let e3c := emit_stage 3 "completed" (some "Section scores computed") none
              let e4s := emit_stage 4 "started"
                (some "Generating critique and risk analysis") none
              match c.run_grant_critique scores0 summary domain with
              | .error e => ([e0s, e0c, e1s, e1c, e2s, e2c, e3s, e3c, e4s], .error e)
              | .ok critique =>
                let e4c := emit_stage 4 "completed" (some "Critique ready") none
                match build_critique_domain_scores critique scores0 with
                | .error e =>
                  ([e0s, e0c, e1s, e1c, e2s, e2c, e3s, e3c, e4s, e4c], .error e)
                | .ok cds =>
                  match validateScores scores0 with
                  | .error e =>
                    ([e0s, e0c, e1s, e1c, e2s, e2c, e3s, e3c, e4s, e4c], .error e)
                  | .ok scores =>
                    match extractScoresVal scores with
                    | .error e =>
                      ([e0s, e0c, e1s, e1c, e2s, e2c, e3s, e3c, e4s, e4c], .error e)
                    | .ok scoresVal =>
                      match compute_weighted_score scoresVal domain cds with
                      | .error e =>
                        ([e0s, e0c, e1s, e1c, e2s, e2c, e3s, e3c, e4s, e4c], .error e)
                      | .ok fws =>
                        let e5s := emit_stage 5 "started"
                          (some "Evaluating budget structure") none
                        match budgetStage c max_budget domain summary pages
                            vs.askBudget scores with
                        | .error e =>
                          ([e0s, e0c, e1s, e1c, e2s, e2c, e3s, e3c, e4s, e4c, e5s],
                           .error e)
                        | .ok bres =>
                          let e5c := emit_stage 5 "completed" (some bres.2) none
                          let e6s := emit_stage 6 "started"
                            (some "Running compliance checks") none
                          let plag := plagiarismStep c check_plagiarism pages
                          let e6c := emit_stage 6 "completed" (some plag.2) none
                          let e7s := emit_stage 7 "started"
                            (some "Compiling final recommendation package") none
                          match c.run_final_decision_agent summary scores critique
                              bres.1 fws domain with
                          | .error e =>
                            ([e0s, e0c, e1s, e1c, e2s, e2c, e3s, e3c, e4s, e4c,
                              e5s, e5c, e6s, e6c, e7s], .error e)
                          | .ok decision =>
                            match format_evaluation_response summary scores critique
                                bres.1 decision fws domain cds plag.1 with
                            | .error e =>
                              ([e0s, e0c, e1s, e1c, e2s, e2c, e3s, e3c, e4s, e4c,
                                e5s, e5c, e6s, e6c, e7s], .error e)
                            | .ok resp =>
                              let e7c := emit_stage 7 "completed"
                                (some ("Recommendation ready (" ++
                                  showJson resp.decision ++ ")")) none
                              ([e0s, e0c, e1s, e1c, e2s, e2c, e3s, e3c, e4s, e4c,
                                e5s, e5c, e6s, e6c, e7s, e7c], .ok resp)


/-!
## Trace signatures and the `/api/evaluations` endpoint (`backend/main.py`)
-/

/-- The claim-relevant projection of a stage event. -/
def evSig (e : Ev) : Nat × String × Nat := (e.stageIndex, e.status, e.progress)

/-- The signatures of the sixteen events a fully successful run emits, in
emission order. -/
def fullSigs : List (Nat × String × Nat) :=
  [(0, "started", 0), (0, "completed", 12), (1, "started", 12), (1, "completed", 25),
   (2, "started", 25), (2, "completed", 37), (3, "started", 37), (3, "completed", 50),
   (4, "started", 50), (4, "completed", 62), (5, "started", 62), (5, "completed", 75),
   (6, "started", 75), (6, "completed", 87), (7, "started", 87), (7, "completed", 100)]

/-- Boolean list-prefix test on signatures. -/
def sigPrefixB : List (Nat × String × Nat) → List (Nat × String × Nat) → Bool
  | [], _ => true
  | _ :: _, [] => false
  | a :: as, b :: bs => a == b && sigPrefixB as bs

/-- Did the run return a response (rather than raise)? -/
def exceptIsOk : Except PyErr Response → Bool
  | .ok _ => true
  | .error _ => false

/-- The trace invariant of `run_full_evaluation`: the emitted signatures
are a prefix of `fullSigs`, and a successful run emits all sixteen. -/
def traceOkB (tr : List Ev) (resOk : Bool) : Bool :=
  sigPrefixB (tr.map evSig) fullSigs && (!resOk || tr.length == 16)

/-- WebSocket operations the `/api/evaluations` endpoint can perform on the
manager for its session (main.py lines 203–305). -/
inductive WsOp where
  | sendQueued
  | sendEv (e : Ev)
  | sendComplete (decision : Json)
  | sendError (msg : String)
  | closeSession (sid : String)

/-- Is the operation a `close_session` call? -/
def isCloseOp : WsOp → Bool
  | .closeSession _ => true
  | _ => false

/-- The quota test of main.py line 239 on the exception text (the
`ResourceExhausted` type-name disjunct can never hold for the built-in
exception types the pipeline raises). -/
def quotaError (msg : String) : Bool :=
  strHasSub "429" msg || strHasSub "quota" (strLower msg)

/-- The manager operations `create_evaluation` performs for a session, from
the pipeline trace and outcome (main.py lines 203–305): the `queued` frame,
one `send` per stage event relayed by `queue_status`, then on success the
`complete` frame (persistence is modelled as infallible) and on failure the
`error` frame only for quota-like errors — any other exception is re-raised
before the second `try`, with no error frame.  No branch calls
`close_session`. -/
def pipelineOps (tr : List Ev) (res : Except PyErr Response) : List WsOp :=
  WsOp.sendQueued :: tr.map WsOp.sendEv ++
    (match res with
     | .ok resp => [WsOp.sendComplete resp.decision]
     | .error e =>
       if quotaError (PyErr.msg e) then
         [WsOp.sendError "AI API quota exceeded. Please wait a few minutes and try again, or check your API key billing."]
       else [])

/-- `create_evaluation` (main.py lines 163–309) with a session id present:
the WebSocket operations performed, paired with the pipeline outcome. -/
def create_evaluation_ops (c : Collab) (max_budget : Q)
    (override_domain : Option String) (check_plagiarism : Bool) :
    List WsOp × Except PyErr Response :=
  (pipelineOps (run_full_evaluation c max_budget override_domain check_plagiarism).1
     (run_full_evaluation c max_budget override_domain check_plagiarism).2,
   (run_full_evaluation c max_budget override_domain check_plagiarism).2)

/-!
## Concrete collaborator instantiations for witnesses
-/

/-- A budget section long enough (207 characters) to keep every later tier
inert and pass the sufficiency check. -/
def cBudgetText : String := "budget " ++ String.mk (List.replicate 200 'a')

/-- A one-section summary whose Budget text is substantial. -/
def cSummary : List (String × SummSection) :=
  [("Budget", ⟨cBudgetText, ["note"], ["ref"]⟩)]

/-- A single page with no budget-related content. -/
def cPages : List Page := [⟨"hello world"⟩]

/-- A well-formed scoring result. -/
def cScores : Json :=
  .obj [("scores", .obj [("Budget", .obj [("score", .num ⟨7, 1⟩)])]),
        ("overall_summary", .str "ok")]

/-- Collaborators for which every stage succeeds. -/
def cDone : Collab :=
  { input_agent := .ok cPages,
    vectorstore_agent := fun _ => .ok ⟨[]⟩,
    classify_domain := fun _ => .ok "General",
    run_summarizer_extended := fun _ _ => .ok cSummary,
    run_grant_scoring := fun _ _ => .ok cScores,
    run_grant_critique := fun _ _ _ => .ok (.obj []),
    run_budget_agent := fun _ _ _ => .ok (.obj
      [("totalBudget", .num ⟨1000, 1⟩), ("breakdown", .arr []),
       ("flags", .arr []), ("summary", .str "fine")]),
    detect_plagiarism := fun _ => .ok (.obj [("risk_level", .str "LOW")]),
    run_final_decision_agent := fun _ _ _ _ _ _ =>
      .ok (.obj [("decision", .str "ACCEPT")]) }

/-- `cDone` with a critique collaborator that raises `msg`. -/
def critFailC (msg : String) : Collab :=
  { cDone with run_grant_critique := fun _ _ _ => .error (.exc msg) }

/-- The concrete failing-critique collaborators. -/
def cCritFail : Collab := critFailC "boom"

/-- The nine events emitted before the critique collaborator raises. -/
def c1Trace : List Ev :=
  [⟨0, "document_ingest", "Parsing document and detecting sections", "started", 0,
    "Extracting proposal pages"⟩,
   ⟨0, "document_ingest", "Parsing document and detecting sections", "completed", 12,
    "Loaded 1 pages"⟩,
   ⟨1, "domain_detection", "Identifying research domain context", "started", 12,
    "Building semantic index and preparing domain detection"⟩,
   ⟨1, "domain_detection", "Identifying research domain context", "completed", 25,
    "Domain locked to AI"⟩,
   ⟨2, "summarisation", "Summarising narrative and metadata", "started", 25,
    "Generating structured summary"⟩,
   ⟨2, "summarisation", "Summarising narrative and metadata", "completed", 37,
    "Summary generated"⟩,
   ⟨3, "scoring", "Scoring against rubric benchmarks", "started", 37,
    "Scoring proposal against rubric"⟩,
   ⟨3, "scoring", "Scoring against rubric benchmarks", "completed", 50,
    "Section scores computed"⟩,
   ⟨4, "critique", "Reviewing critique and risk signals", "started", 50,
    "Generating critique and risk analysis"⟩]

/-- A summary that yields no budget information at all. -/
def cNoBudgetSummary : List (String × SummSection) :=
  [("Objectives", ⟨"We aim high", [], []⟩)]

/-- `cDone` with a summary that yields no budget information at all. -/
def cNoBudget : Collab :=
  { cDone with run_summarizer_extended := fun _ _ => Except.ok cNoBudgetSummary }

/-- The `budget_input` the short-circuited run builds for `cNoBudget`. -/
def cNoBudgetInput : BudgetInput :=
  ⟨"", [], [], .num ⟨7, 1⟩, .str "Budget not analyzed", .arr [], .arr []⟩

/-- A 200-character budget text for tier-gating witnesses. -/
def s200 : String := String.mk (List.replicate 200 'a')

/-- The joined text of the top ten budget-matching vector-store chunks
(evaluation_pipeline.py lines 302–305), the candidate tier-3 yield. -/
def tier3Yield (chunks : List Chunk) : String :=
  String.intercalate "\n\n" (((chunks.filter (fun d =>
    ["$", "budget", "cost", "expense"].any
      (fun kw => strHasSub kw (strLower d.text)))).map (fun d => d.text)).take 10)

/-! ### Theorems -/

namespace Q

theorem pos_ofNat (n : Nat) : Pos (Q.ofNat n) := Nat.one_pos

theorem pos_add {a b : Q} (ha : a.Pos) (hb : b.Pos) : (a.add b).Pos :=
  Nat.mul_pos ha hb

theorem pos_neg {a : Q} (ha : a.Pos) : a.neg.Pos := ha

theorem pos_sub {a b : Q} (ha : a.Pos) (hb : b.Pos) : (a.sub b).Pos :=
  pos_add ha (pos_neg hb)

theorem pos_mul {a b : Q} (ha : a.Pos) (hb : b.Pos) : (a.mul b).Pos :=
  Nat.mul_pos ha hb

theorem pos_div {a b : Q} (ha : a.Pos) (hb : b.num ≠ 0) : (a.div b).Pos :=
  Nat.mul_pos ha (Int.natAbs_pos.mpr hb)

theorem pos_minQ {a b : Q} (ha : a.Pos) (hb : b.Pos) : (a.minQ b).Pos := by
  unfold minQ; split <;> assumption

theorem pos_maxQ {a b : Q} (ha : a.Pos) (hb : b.Pos) : (a.maxQ b).Pos := by
  unfold maxQ; split <;> assumption

theorem toRat_ofNat (n : Nat) : (Q.ofNat n).toRat = (n : ℚ) := by
  simp [toRat, ofNat]

theorem toRat_add {a b : Q} (ha : a.Pos) (hb : b.Pos) :
    (a.add b).toRat = a.toRat + b.toRat := by
  have ha' : ((a.den : ℚ)) ≠ 0 := by exact_mod_cast Nat.pos_iff_ne_zero.mp ha
  have hb' : ((b.den : ℚ)) ≠ 0 := by exact_mod_cast Nat.pos_iff_ne_zero.mp hb
  simp only [toRat, add]
  push_cast
  field_simp

theorem toRat_neg (a : Q) : a.neg.toRat = -a.toRat := by
  simp [toRat, neg, neg_div]

theorem toRat_sub {a b : Q} (ha : a.Pos) (hb : b.Pos) :
    (a.sub b).toRat = a.toRat - b.toRat := by
  rw [sub, toRat_add ha (pos_neg hb), toRat_neg]; ring

theorem toRat_mul {a b : Q} (ha : a.Pos) (hb : b.Pos) :
    (a.mul b).toRat = a.toRat * b.toRat := by
  have ha' : ((a.den : ℚ)) ≠ 0 := by exact_mod_cast Nat.pos_iff_ne_zero.mp ha
  have hb' : ((b.den : ℚ)) ≠ 0 := by exact_mod_cast Nat.pos_iff_ne_zero.mp hb
  simp only [toRat, mul]
  push_cast
  field_simp

theorem toRat_div {a b : Q} (ha : a.Pos) (hb : b.Pos) (hn : b.num ≠ 0) :
    (a.div b).toRat = a.toRat / b.toRat := by
  have ha' : ((a.den : ℚ)) ≠ 0 := by exact_mod_cast Nat.pos_iff_ne_zero.mp ha
  have hb' : ((b.den : ℚ)) ≠ 0 := by exact_mod_cast Nat.pos_iff_ne_zero.mp hb
  have hn' : ((b.num : ℚ)) ≠ 0 := by exact_mod_cast hn
  simp only [toRat, div]
  rcases lt_trichotomy b.num 0 with h | h | h
  · rw [Int.sign_eq_neg_one_of_neg h]
    have hq : (b.num.natAbs : ℚ) = -(b.num : ℚ) := by
      rw [Int.cast_natAbs]
      exact_mod_cast abs_of_neg h
    push_cast
    rw [hq]
    field_simp
  · exact absurd h hn
  · rw [Int.sign_eq_one_of_pos h]
    have hq : (b.num.natAbs : ℚ) = (b.num : ℚ) := by
      rw [Int.cast_natAbs]
      exact_mod_cast abs_of_pos h
    push_cast
    rw [hq]
    field_simp

theorem leB_iff {a b : Q} (ha : a.Pos) (hb : b.Pos) :
    a.leB b = true ↔ a.toRat ≤ b.toRat := by
  have ha' : (0 : ℚ) < (a.den : ℚ) := by exact_mod_cast ha
  have hb' : (0 : ℚ) < (b.den : ℚ) := by exact_mod_cast hb
  simp only [leB, toRat, decide_eq_true_eq]
  rw [div_le_div_iff₀ ha' hb']
  constructor
  · intro h; exact_mod_cast h
  · intro h; exact_mod_cast h

theorem ltB_iff {a b : Q} (ha : a.Pos) (hb : b.Pos) :
    a.ltB b = true ↔ a.toRat < b.toRat := by
  have ha' : (0 : ℚ) < (a.den : ℚ) := by exact_mod_cast ha
  have hb' : (0 : ℚ) < (b.den : ℚ) := by exact_mod_cast hb
  simp only [ltB, toRat, decide_eq_true_eq]
  rw [div_lt_div_iff₀ ha' hb']
  constructor
  · intro h; exact_mod_cast h
  · intro h; exact_mod_cast h

theorem beq_iff {a b : Q} (ha : a.Pos) (hb : b.Pos) :
    a.beq b = true ↔ a.toRat = b.toRat := by
  have ha' : ((a.den : ℚ)) ≠ 0 := by exact_mod_cast Nat.pos_iff_ne_zero.mp ha
  have hb' : ((b.den : ℚ)) ≠ 0 := by exact_mod_cast Nat.pos_iff_ne_zero.mp hb
  simp only [beq, beq_iff_eq, toRat]
  rw [div_eq_div_iff ha' hb']
  constructor
  · intro h; exact_mod_cast h
  · intro h; exact_mod_cast h

theorem toRat_minQ {a b : Q} (ha : a.Pos) (hb : b.Pos) :
    (a.minQ b).toRat = min a.toRat b.toRat := by
  unfold minQ
  rcases hle : a.leB b with _ | _
  · have : ¬ a.toRat ≤ b.toRat := by
      intro hc; rw [← leB_iff ha hb] at hc; simp [hle] at hc
    simp [min_eq_right (le_of_not_le this)]
  · have := (leB_iff ha hb).mp hle
    simp [min_eq_left this]

theorem toRat_maxQ {a b : Q} (ha : a.Pos) (hb : b.Pos) :
    (a.maxQ b).toRat = max a.toRat b.toRat := by
  unfold maxQ
  rcases hle : a.leB b with _ | _
  · have : ¬ a.toRat ≤ b.toRat := by
      intro hc; rw [← leB_iff ha hb] at hc; simp [hle] at hc
    simp [max_eq_left (le_of_not_le this)]
  · have := (leB_iff ha hb).mp hle
    simp [max_eq_right this]


end Q

/-- Every failure of the strict branch is one the outer handler catches. -/
theorem scoringStrictStep_caught (cleaned : String) :
    ∀ e, scoringStrictStep cleaned = .error e → outerCatches e = true := by
  intro e h
  unfold scoringStrictStep at h
  split at h
  · cases h; rfl
  · split at h
    · split at h
      · exact Except.noConfusion h
      · split at h
        · exact Except.noConfusion h
        · cases h; rfl
    · cases h; rfl

/-- C3: the structured-output recovery of `run_grant_scoring` never lets an
exception escape — strict parse first, then bounded repair, then the
caller-side fallback shape — and whenever the strict parse succeeds as a
dict containing a `"scores"` key, that parsed value is returned unmodified. -/
theorem scoring_recovery_total_and_faithful (cleaned : String) :
    (∃ v, run_grant_scoring_recovery cleaned = Except.ok v) ∧
    (∀ kvs, Json.parse cleaned = some (Json.obj kvs) →
      Json.hasKey kvs "scores" = true →
      run_grant_scoring_recovery cleaned = Except.ok (Json.obj kvs)) := by
  constructor
  · cases hs : scoringStrictStep cleaned with
    | ok v =>
      refine ⟨v, ?_⟩
      unfold run_grant_scoring_recovery
      rw [hs]
    | error e =>
      have hc := scoringStrictStep_caught cleaned e hs
      have hrec : run_grant_scoring_recovery cleaned =
          (match scoringRepairStep cleaned with
           | .ok v => .ok v
           | .error _ => .ok (scoringFallback cleaned)) := by
        unfold run_grant_scoring_recovery
        rw [hs]
        dsimp only
        rw [hc]
        simp
      rw [hrec]
      cases scoringRepairStep cleaned with
      | ok v => exact ⟨v, rfl⟩
      | error e₂ => exact ⟨scoringFallback cleaned, rfl⟩
  · intro kvs hp hk
    have hs : scoringStrictStep cleaned = .ok (.obj kvs) := by
      unfold scoringStrictStep
      rw [hp]
      simp [hk]
    unfold run_grant_scoring_recovery
    rw [hs]

/-- Witness for C3 at the concrete input `{"scores": 1}`. -/
theorem scoring_recovery_witness :
    Json.parse "\x7b\"scores\": 1\x7d" = some (Json.obj [("scores", Json.num ⟨1, 1⟩)]) ∧
    run_grant_scoring_recovery "\x7b\"scores\": 1\x7d" =
      Except.ok (Json.obj [("scores", Json.num ⟨1, 1⟩)]) :=
  ⟨rfl, (scoring_recovery_total_and_faithful "\x7b\"scores\": 1\x7d").2
    [("scores", Json.num ⟨1, 1⟩)] rfl rfl⟩

namespace Q

theorem pos_zero : (0 : Q).Pos := Nat.one_pos

theorem pos_one : (1 : Q).Pos := Nat.one_pos

theorem toRat_zero : (0 : Q).toRat = 0 := by
  show toRat ⟨0, 1⟩ = 0
  simp [toRat]

theorem toRat_nonneg {x : Q} (h : 0 ≤ x.num) : 0 ≤ x.toRat :=
  div_nonneg (by exact_mod_cast h) (by positivity)

theorem num_pos_of_toRat_pos {x : Q} (h : 0 < x.toRat) :
    0 < x.num := by
  by_contra hn
  push_neg at hn
  have : x.toRat ≤ 0 :=
    div_nonpos_of_nonpos_of_nonneg (by exact_mod_cast hn) (by positivity)
  exact absurd h (not_lt.mpr this)

theorem num_ne_zero_of_toRat_pos {x : Q} (h : 0 < x.toRat) :
    x.num ≠ 0 :=
  ne_of_gt (num_pos_of_toRat_pos h)

end Q

/-- Every weight in the static `DOMAIN_WEIGHTS` table is a well-formed
non-negative rational. -/
theorem domainWeightsOkB :
    (DOMAIN_WEIGHTS.all fun p => p.2.all fun w =>
      decide (0 ≤ w.2.num) && decide (0 < w.2.den)) = true := by decide

/-- Every weight `compute_section_weighted_score` can look up — whether from
the table or from the equal-weight fallback — is well formed and
non-negative. -/
theorem sectionWeights_ok (scores : List (String × Json)) (domain : String) :
    ∀ w ∈ sectionWeights scores domain, w.2.Pos ∧ 0 ≤ w.2.toRat := by
  intro w hw
  unfold sectionWeights at hw
  cases hf : DOMAIN_WEIGHTS.find? (fun p => p.1 == domain) with
  | some p =>
    rw [hf] at hw
    have hp := List.mem_of_find?_eq_some hf
    have h1 := (List.all_eq_true.mp domainWeightsOkB) p hp
    have h2 := (List.all_eq_true.mp h1) w hw
    rw [Bool.and_eq_true] at h2
    have hden : 0 < w.2.den := of_decide_eq_true h2.2
    have hnum : 0 ≤ w.2.num := of_decide_eq_true h2.1
    exact ⟨hden, Q.toRat_nonneg hnum⟩
  | none =>
    rw [hf] at hw
    obtain ⟨orig, ho, rfl⟩ := List.mem_map.mp hw
    have hlen : 0 < scores.length := List.length_pos.mpr (List.ne_nil_of_mem ho)
    have hsign : Int.sign ((scores.length : Int)) = 1 :=
      Int.sign_eq_one_of_pos (by exact_mod_cast hlen)
    constructor
    · show (Q.div 1 (Q.ofNat scores.length)).Pos
      simp only [Q.div, Q.ofNat, Q.Pos, OfNat.ofNat]
      simpa [Int.natAbs_ofNat] using hlen
    · apply Q.toRat_nonneg
      simp only [Q.div, Q.ofNat, OfNat.ofNat, hsign]
      simp [Q.ofNat]

/-- The weighted-sum fold of `compute_section_weighted_score` succeeds on
well-formed inputs and maintains `0 ≤ weightedSum ≤ 10 · totalWeight`. -/
theorem sectionFold_ok (weights : List (String × Q))
    (hw : ∀ w ∈ weights, w.2.Pos ∧ 0 ≤ w.2.toRat) :
    ∀ (scores : List (String × Json)), SectionEntriesOk scores →
    ∀ acc : Q × Q, acc.1.Pos → acc.2.Pos → 0 ≤ acc.1.toRat →
      0 ≤ acc.2.toRat → acc.1.toRat ≤ 10 * acc.2.toRat →
    ∃ ws tw : Q,
      scores.foldlM (sectionStep weights) acc = .ok (ws, tw) ∧
      ws.Pos ∧ tw.Pos ∧ 0 ≤ ws.toRat ∧ 0 ≤ tw.toRat ∧
      ws.toRat ≤ 10 * tw.toRat := by
  intro scores
  induction scores with
  | nil =>
    intro _ acc h1 h2 h3 h4 h5
    exact ⟨acc.1, acc.2, rfl, h1, h2, h3, h4, h5⟩
  | cons head tail ih =>
    intro hOk acc h1 h2 h3 h4 h5
    obtain ⟨q, hq, hqPos, hq0, hq10⟩ := hOk head (List.mem_cons_self _ _)
    have hTail : SectionEntriesOk tail := fun p hp => hOk p (List.mem_cons_of_mem _ hp)
    rw [List.foldlM_cons]
    cases hf : weights.find? (fun p => p.1 == head.1) with
    | none =>
      have hstep : sectionStep weights acc head = .ok acc := by
        unfold sectionStep
        rw [hf]
        rfl
      rw [hstep]

      simpa using ih hTail acc h1 h2 h3 h4 h5
    | some w =>
      obtain ⟨hwPos, hw0⟩ := hw w (List.mem_of_find?_eq_some hf)
      have hstep : sectionStep weights acc head =
          .ok (acc.1.add (q.mul w.2), acc.2.add w.2) := by
        unfold sectionStep
        rw [hf, hq]
        rfl
      rw [hstep]
      have hmulPos := Q.pos_mul hqPos hwPos
      have hnew1 : (acc.1.add (q.mul w.2)).Pos := Q.pos_add h1 hmulPos
      have hnew2 : (acc.2.add w.2).Pos := Q.pos_add h2 hwPos
      have hmul : (q.mul w.2).toRat = q.toRat * w.2.toRat := Q.toRat_mul hqPos hwPos
      have hnew3 : 0 ≤ (acc.1.add (q.mul w.2)).toRat := by
        rw [Q.toRat_add h1 hmulPos, hmul]
        exact add_nonneg h3 (mul_nonneg hq0 hw0)
      have hnew4 : 0 ≤ (acc.2.add w.2).toRat := by
        rw [Q.toRat_add h2 hwPos]
        exact add_nonneg h4 hw0
      have hnew5 : (acc.1.add (q.mul w.2)).toRat ≤ 10 * (acc.2.add w.2).toRat := by
        rw [Q.toRat_add h1 hmulPos, Q.toRat_add h2 hwPos, hmul]
        have : q.toRat * w.2.toRat ≤ 10 * w.2.toRat :=
          mul_le_mul_of_nonneg_right hq10 hw0
        linarith
      simpa using ih hTail (acc.1.add (q.mul w.2), acc.2.add w.2)
        hnew1 hnew2 hnew3 hnew4 hnew5

/-- The score-extraction `mapM` of the fallback branch succeeds on
well-formed inputs, yielding exactly the per-section scores. -/
theorem sectionMap_ok :
    ∀ (scores : List (String × Json)), SectionEntriesOk scores →
    ∃ qs : List Q,
      scores.mapM (fun p => Json.asNum (sectionScoreVal p.2)) = .ok qs ∧
      qs.length = scores.length ∧
      ∀ q ∈ qs, q.Pos ∧ 0 ≤ q.toRat ∧ q.toRat ≤ 10 := by
  intro scores
  induction scores with
  | nil => exact fun _ => ⟨[], rfl, rfl, by simp⟩
  | cons head tail ih =>
    intro hOk
    obtain ⟨q, hq, hqPos, hq0, hq10⟩ := hOk head (List.mem_cons_self _ _)
    obtain ⟨qs, hqs, hlen, hall⟩ :=
      ih (fun p hp => hOk p (List.mem_cons_of_mem _ hp))
    refine ⟨q :: qs, ?_, by simp [hlen], ?_⟩
    · rw [List.mapM_cons, hq]
      show (Except.ok q >>= fun x =>
        tail.mapM (fun p => Json.asNum (sectionScoreVal p.2)) >>= fun xs =>
          pure (x :: xs)) = _
      rw [hqs]
      rfl
    · intro x hx
      rcases List.mem_cons.mp hx with rfl | hx
      · exact ⟨hqPos, hq0, hq10⟩
      · exact hall x hx

/-- Folding `Q.add` over well-formed values stays well formed and denotes
the rational sum. -/
theorem foldl_add_toRat :
    ∀ (qs : List Q), (∀ q ∈ qs, q.Pos) →
    ∀ acc : Q, acc.Pos →
      (qs.foldl Q.add acc).Pos ∧
      (qs.foldl Q.add acc).toRat = acc.toRat + (qs.map Q.toRat).sum := by
  intro qs
  induction qs with
  | nil => intro _ acc hacc; exact ⟨hacc, by simp⟩
  | cons head tail ih =>
    intro hall acc hacc
    have hhead := hall head (List.mem_cons_self _ _)
    have htail := fun q hq => hall q (List.mem_cons_of_mem _ hq)
    have hstep := Q.pos_add hacc hhead
    obtain ⟨hpos, hsum⟩ := ih htail (acc.add head) hstep
    refine ⟨by simpa using hpos, ?_⟩
    simp only [List.foldl_cons, List.map_cons, List.sum_cons]
    rw [hsum, Q.toRat_add hacc hhead]
    ring

/-- `compute_section_weighted_score` succeeds on any well-formed score
bundle and returns a value in [0, 10]. -/
theorem compute_section_ok (scores : List (String × Json)) (domain : String)
    (hs : SectionEntriesOk scores) :
    ∃ sec : Q, compute_section_weighted_score scores domain = .ok sec ∧
      sec.Pos ∧ 0 ≤ sec.toRat ∧ sec.toRat ≤ 10 := by
  obtain ⟨ws, tw, hfold, hwsP, htwP, hws0, htw0, hb⟩ :=
    sectionFold_ok (sectionWeights scores domain) (sectionWeights_ok scores domain)
      scores hs ((0 : Q), (0 : Q)) Q.pos_zero Q.pos_zero
      (by simp [Q.toRat_zero]) (by simp [Q.toRat_zero]) (by simp [Q.toRat_zero])
  have hrun : compute_section_weighted_score scores domain =
      (if Q.ltB 0 tw then pure (ws.div tw)
       else do
         let scoreValues ← scores.mapM (fun p => Json.asNum (sectionScoreVal p.2))
         if scoreValues.isEmpty then pure 0
         else pure ((scoreValues.foldl Q.add 0).div (Q.ofNat scoreValues.length))) := by
    unfold compute_section_weighted_score
    dsimp only
    rw [hfold]
    rfl
  rw [hrun]
  cases hlt : Q.ltB 0 tw with
  | true =>
    have htwpos : 0 < tw.toRat := by
      have := (Q.ltB_iff Q.pos_zero htwP).mp hlt
      rwa [Q.toRat_zero] at this
    have hnum := Q.num_ne_zero_of_toRat_pos htwpos
    refine ⟨ws.div tw, rfl, Q.pos_div hwsP hnum, ?_, ?_⟩
    · rw [Q.toRat_div hwsP htwP hnum]
      exact div_nonneg hws0 (le_of_lt htwpos)
    · rw [Q.toRat_div hwsP htwP hnum]
      rw [div_le_iff₀ htwpos]
      linarith
  | false =>
    obtain ⟨qs, hqs, hlen, hall⟩ := sectionMap_ok scores hs
    have hrest : (if (false : Bool) then pure (ws.div tw)
       else do
         let scoreValues ← scores.mapM (fun p => Json.asNum (sectionScoreVal p.2))
         if scoreValues.isEmpty then pure (0 : Q)
         else pure ((scoreValues.foldl Q.add 0).div (Q.ofNat scoreValues.length))) =
        (if qs.isEmpty then pure (0 : Q)
         else pure ((qs.foldl Q.add 0).div (Q.ofNat qs.length)) :
           Except PyErr Q) := by
      rw [if_neg (by simp), hqs]
      rfl
    rw [hrest]
    cases hqe : qs.isEmpty with
    | true =>
      refine ⟨0, rfl, Q.pos_zero, ?_, ?_⟩
      · simp [Q.toRat_zero]
      · simp [Q.toRat_zero]
    | false =>
      have hne : qs ≠ [] := by
        intro hcon
        rw [hcon] at hqe
        simp at hqe
      have hqlen : 0 < qs.length := List.length_pos.mpr hne
      obtain ⟨hfPos, hfVal⟩ := foldl_add_toRat qs (fun q hqm => (hall q hqm).1) 0 Q.pos_zero
      have hsum0 : 0 ≤ (qs.map Q.toRat).sum :=
        List.sum_nonneg (by
          intro x hx
          obtain ⟨q, hqm, rfl⟩ := List.mem_map.mp hx
          exact (hall q hqm).2.1)
      have hsum10 : (qs.map Q.toRat).sum ≤ (qs.length : ℚ) * 10 := by
        have h1 := List.sum_le_card_nsmul (qs.map Q.toRat) 10 (by
          intro x hx
          obtain ⟨q, hqm, rfl⟩ := List.mem_map.mp hx
          exact (hall q hqm).2.2)
        simpa [nsmul_eq_mul, mul_comm] using h1
      have hlnum : (Q.ofNat qs.length).num ≠ 0 := by
        show ((qs.length : Int)) ≠ 0
        exact_mod_cast Nat.pos_iff_ne_zero.mp hqlen
      have hlPos : (Q.ofNat qs.length).Pos := Q.pos_ofNat _
      have hqlenQ : (0 : ℚ) < (qs.length : ℚ) := by exact_mod_cast hqlen
      refine ⟨(qs.foldl Q.add 0).div (Q.ofNat qs.length), ?_,
        Q.pos_div hfPos hlnum, ?_, ?_⟩
      · rw [if_neg (by simp [hqe])]
        rfl
      · rw [Q.toRat_div hfPos hlPos hlnum, Q.toRat_ofNat]
        apply div_nonneg _ (le_of_lt hqlenQ)
        rw [hfVal, Q.toRat_zero]
        linarith
      · rw [Q.toRat_div hfPos hlPos hlnum, Q.toRat_ofNat]
        rw [div_le_iff₀ hqlenQ, hfVal, Q.toRat_zero]
        linarith

/-- Under `CritiqueEntriesOk`, the `filterMap` of `compute_critique_average`
keeps every entry and extracts exactly the per-dimension scores. -/
theorem critique_vals_ok :
    ∀ (cds : List Json), CritiqueEntriesOk cds →
    ∃ qs : List Q,
      (cds.filterMap (fun d =>
        match d with
        | .obj kvs =>
          if Json.hasKey kvs "score" then some (Json.findD kvs "score" .null)
          else none
        | _ => none)) = qs.map Json.num ∧
      qs.length = cds.length ∧
      (∀ q ∈ qs, q.Pos ∧ 0 ≤ q.toRat ∧ q.toRat ≤ 10) ∧
      qs.map Q.toRat = cds.map critiqueScoreRat := by
  intro cds
  induction cds with
  | nil => exact fun _ => ⟨[], rfl, rfl, by simp, rfl⟩
  | cons d tail ih =>
    intro hc
    obtain ⟨kvs, q, rfl, hk, hfind, hqPos, hq0, hq10⟩ :=
      hc d (List.mem_cons_self _ _)
    obtain ⟨qs, hvals, hlen, hall, hrats⟩ :=
      ih (fun x hx => hc x (List.mem_cons_of_mem _ hx))
    refine ⟨q :: qs, ?_, by simp [hlen], ?_, ?_⟩
    · rw [List.filterMap_cons]
      simp only [hk, if_true, hfind]
      rw [hvals]
      rfl
    · intro x hx
      rcases List.mem_cons.mp hx with rfl | hx
      · exact ⟨hqPos, hq0, hq10⟩
      · exact hall x hx
    · simp only [List.map_cons, hrats, critiqueScoreRat, hfind]

/-- `Json.sumNums` over a list of numbers is the `Q.add` fold. -/
theorem sumNums_map_num (qs : List Q) :
    ∀ acc : Q, (qs.map Json.num).foldlM
      (fun acc v => do
        let q ← Json.asNum v
        pure (acc.add q)) acc = .ok (qs.foldl Q.add acc) := by
  induction qs with
  | nil => intro acc; rfl
  | cons head tail ih =>
    intro acc
    rw [List.map_cons, List.foldlM_cons]
    show (Except.ok (acc.add head) >>= _) = _
    rw [List.foldl_cons]
    exact ih (acc.add head)

/-- `compute_critique_average` on a non-empty well-formed critique list
succeeds with the arithmetic mean of the dimension scores, a value in
[0, 10]. -/
theorem critique_avg_ok (cds : List Json) (hc : CritiqueEntriesOk cds)
    (hne : cds ≠ []) :
    ∃ c : Q, compute_critique_average cds = .ok c ∧ c.Pos ∧
      0 ≤ c.toRat ∧ c.toRat ≤ 10 ∧
      c.toRat = (cds.map critiqueScoreRat).sum / (cds.length : ℚ) := by
  obtain ⟨qs, hvals, hlen, hall, hrats⟩ := critique_vals_ok cds hc
  have hqne : qs ≠ [] := by
    intro hcon
    rw [hcon] at hlen
    exact hne (List.length_eq_zero.mp hlen.symm)
  have hqlen : 0 < qs.length := List.length_pos.mpr hqne
  have hrun : compute_critique_average cds =
      .ok ((qs.foldl Q.add 0).div (Q.ofNat qs.length)) := by
    unfold compute_critique_average
    rw [if_neg (by simp [hne])]
    dsimp only
    rw [hvals]
    rw [if_neg (by simp [hqne])]
    unfold Json.sumNums
    rw [sumNums_map_num qs 0]
    show Except.ok _ = _
    congr 1
    congr 1
    simp [Q.ofNat, List.length_map]
  obtain ⟨hfPos, hfVal⟩ := foldl_add_toRat qs (fun q hq => (hall q hq).1) 0 Q.pos_zero
  have hlnum : (Q.ofNat qs.length).num ≠ 0 := by
    show ((qs.length : Int)) ≠ 0
    exact_mod_cast Nat.pos_iff_ne_zero.mp hqlen
  have hlPos : (Q.ofNat qs.length).Pos := Q.pos_ofNat _
  have hqlenQ : (0 : ℚ) < (qs.length : ℚ) := by exact_mod_cast hqlen
  have hsum0 : 0 ≤ (qs.map Q.toRat).sum :=
    List.sum_nonneg (by
      intro x hx
      obtain ⟨q, hqm, rfl⟩ := List.mem_map.mp hx
      exact (hall q hqm).2.1)
  have hsum10 : (qs.map Q.toRat).sum ≤ (qs.length : ℚ) * 10 := by
    have h1 := List.sum_le_card_nsmul (qs.map Q.toRat) 10 (by
      intro x hx
      obtain ⟨q, hqm, rfl⟩ := List.mem_map.mp hx
      exact (hall q hqm).2.2)
    simpa [nsmul_eq_mul, mul_comm] using h1
  refine ⟨(qs.foldl Q.add 0).div (Q.ofNat qs.length), hrun,
    Q.pos_div hfPos hlnum, ?_, ?_, ?_⟩
  · rw [Q.toRat_div hfPos hlPos hlnum, Q.toRat_ofNat]
    apply div_nonneg _ (le_of_lt hqlenQ)
    rw [hfVal, Q.toRat_zero]
    linarith
  · rw [Q.toRat_div hfPos hlPos hlnum, Q.toRat_ofNat]
    rw [div_le_iff₀ hqlenQ, hfVal, Q.toRat_zero]
    linarith
  · rw [Q.toRat_div hfPos hlPos hlnum, Q.toRat_ofNat]
    rw [hfVal, Q.toRat_zero, hrats, hlen]
    ring

theorem pct_pos (n : Int) : (pct n).Pos := by
  show (0 : Nat) < 100
  decide

theorem toRat_pct (n : Int) : (pct n).toRat = (n : ℚ) / 100 := by
  simp [pct, Q.toRat]

/-- C2 (amended): the blended final score equals exactly
`0.6 × section contribution + 0.4 × critique mean` — no rounding is applied
(and the clamp is vacuous: for in-range inputs the result already lies in
[0, 10]); with no critique scores the result is the section contribution
alone. -/
theorem compute_weighted_score_blend (scores : List (String × Json))
    (domain : String) (cds : List Json)
    (hs : SectionEntriesOk scores) (hc : CritiqueEntriesOk cds) :
    ∃ sec r : Q,
      compute_section_weighted_score scores domain = .ok sec ∧
      compute_weighted_score (.obj scores) domain cds = .ok r ∧
      0 ≤ r.toRat ∧ r.toRat ≤ 10 ∧
      (cds = [] → r = sec) ∧
      (cds ≠ [] → r.toRat =
        6 / 10 * sec.toRat +
        4 / 10 * ((cds.map critiqueScoreRat).sum / (cds.length : ℚ))) := by
  obtain ⟨sec, hsec, hsecP, hsec0, hsec10⟩ := compute_section_ok scores domain hs
  have h1 : compute_weighted_score (.obj scores) domain cds =
      (if cds.isEmpty then pure sec
       else do
         let c ← compute_critique_average cds
         pure ((sec.mul (pct 60)).add (c.mul (pct 40))) : Except PyErr Q) := by
    unfold compute_weighted_score
    show (Except.ok scores >>= _) = _
    rw [show ∀ k, (Except.ok scores >>= k : Except PyErr Q) = k scores from fun _ => rfl]
    dsimp only
    rw [hsec]
    rfl
  cases hcd : cds with
  | nil =>
    refine ⟨sec, sec, hsec, ?_, hsec0, hsec10, fun _ => rfl, fun hne => absurd rfl hne⟩
    rw [← hcd, h1, hcd]
    rfl
  | cons c0 ctail =>
    rw [← hcd]
    have hne : cds ≠ [] := by simp [hcd]
    obtain ⟨c, hcavg, hcP, hc0, hc10, hcmean⟩ := critique_avg_ok cds hc hne
    have hm1 := Q.pos_mul hsecP (pct_pos 60)
    have hm2 := Q.pos_mul hcP (pct_pos 40)
    refine ⟨sec, (sec.mul (pct 60)).add (c.mul (pct 40)), hsec, ?_, ?_, ?_,
      fun heq => absurd heq hne, fun _ => ?_⟩
    · rw [h1, if_neg (by simp [hcd]), hcavg]
      rfl
    · rw [Q.toRat_add hm1 hm2, Q.toRat_mul hsecP (pct_pos 60),
        Q.toRat_mul hcP (pct_pos 40), toRat_pct, toRat_pct]
      have h60 : ((60 : Int) : ℚ) / 100 = 6 / 10 := by norm_num
      have h40 : ((40 : Int) : ℚ) / 100 = 4 / 10 := by norm_num
      rw [h60, h40]
      nlinarith [hsec0, hc0]
    · rw [Q.toRat_add hm1 hm2, Q.toRat_mul hsecP (pct_pos 60),
        Q.toRat_mul hcP (pct_pos 40), toRat_pct, toRat_pct]
      have h60 : ((60 : Int) : ℚ) / 100 = 6 / 10 := by norm_num
      have h40 : ((40 : Int) : ℚ) / 100 = 4 / 10 := by norm_num
      rw [h60, h40]
      nlinarith [hsec0, hsec10, hc0, hc10]
    · rw [Q.toRat_add hm1 hm2, Q.toRat_mul hsecP (pct_pos 60),
        Q.toRat_mul hcP (pct_pos 40), toRat_pct, toRat_pct, hcmean]
      push_cast
      ring

/-- Witness for C2 at the spec's own scenario: unknown domain "General"
(equal weights 0.5/0.5), sections 8 and 6, critique 7 and 9 — the code
returns exactly 7.4. -/
theorem compute_weighted_score_blend_witness :
    (∃ sec r : Q,
      compute_section_weighted_score blendScenarioSections "General" = .ok sec ∧
      compute_weighted_score (.obj blendScenarioSections) "General"
        blendScenarioCritique = .ok r ∧
      0 ≤ r.toRat ∧ r.toRat ≤ 10 ∧
      (blendScenarioCritique = [] → r = sec) ∧
      (blendScenarioCritique ≠ [] → r.toRat =
        6 / 10 * sec.toRat +
        4 / 10 * ((blendScenarioCritique.map critiqueScoreRat).sum /
          (blendScenarioCritique.length : ℚ)))) ∧
    compute_weighted_score (.obj blendScenarioSections) "General"
      blendScenarioCritique = .ok ⟨2368000, 320000⟩ ∧
    (⟨2368000, 320000⟩ : Q).toRat = 37 / 5 := by
  refine ⟨compute_weighted_score_blend _ _ _ ?_ ?_, rfl, ?_⟩
  · intro p hp
    rcases List.mem_cons.mp hp with rfl | hp
    · exact ⟨⟨8, 1⟩, rfl, Nat.one_pos, by norm_num [Q.toRat], by norm_num [Q.toRat]⟩
    rcases List.mem_cons.mp hp with rfl | hp
    · exact ⟨⟨6, 1⟩, rfl, Nat.one_pos, by norm_num [Q.toRat], by norm_num [Q.toRat]⟩
    · cases hp
  · intro d hd
    rcases List.mem_cons.mp hd with rfl | hd
    · exact ⟨_, ⟨7, 1⟩, rfl, rfl, rfl, Nat.one_pos,
        by norm_num [Q.toRat], by norm_num [Q.toRat]⟩
    rcases List.mem_cons.mp hd with rfl | hd
    · exact ⟨_, ⟨9, 1⟩, rfl, rfl, rfl, Nat.one_pos,
        by norm_num [Q.toRat], by norm_num [Q.toRat]⟩
    · cases hd
  · show ((2368000 : Int) : ℚ) / ((320000 : Nat) : ℚ) = 37 / 5
    norm_num

/-- C2 counterexample: with one section scored 0 under an unknown domain
(spec: equal weighting, section contribution 0) and critique scores
1, 1, 2 (mean 4/3), the code returns 8/15 = 0.5333…, while the spec's
formula — clamped and **rounded to two decimal places** — demands 0.53.
The code never rounds. -/
theorem compute_weighted_score_not_spec_rounded :
    compute_weighted_score (Json.obj blendCexSections) "Medieval Studies"
      blendCexCritique = .ok ⟨16000, 30000⟩ ∧
    (⟨16000, 30000⟩ : Q).toRat = 8 / 15 ∧
    specBlend 0 (4 / 3) = 53 / 100 ∧
    ((8 : ℚ) / 15) ≠ 53 / 100 := by
  refine ⟨rfl, ?_, ?_, by norm_num⟩
  · show ((16000 : Int) : ℚ) / ((30000 : Nat) : ℚ) = 8 / 15
    norm_num
  · unfold specBlend specRound2
    have h1 : (6 : ℚ) / 10 * 0 + 4 / 10 * (4 / 3) = 8 / 15 := by norm_num
    rw [h1]
    have h2 : max (0 : ℚ) (8 / 15) = 8 / 15 := max_eq_right (by norm_num)
    have h3 : min (10 : ℚ) (8 / 15) = 8 / 15 := min_eq_right (by norm_num)
    rw [h2, h3]
    have h4 : (8 : ℚ) / 15 * 100 = 160 / 3 := by norm_num
    rw [h4, round_eq]
    norm_num

/-- Flooring integer division by a positive natural is the rational floor. -/
theorem fdiv_eq_floorQ (n : Int) (d : Nat) :
    Int.fdiv n (d : Int) = ⌊(n : ℚ) / (d : ℚ)⌋ := by
  rw [Int.fdiv_eq_ediv _ (by positivity)]
  exact (Rat.floor_intCast_div_natCast n d).symm

/-- The integer round-half-even of the embedding agrees with the rational
reference on positive denominators. -/
theorem roundHalfEvenInt_eq (n : Int) (d : Nat) (hd : 0 < d) :
    roundHalfEvenInt n d = roundHEQ ((n : ℚ) / (d : ℚ)) := by
  have hdQ : (0 : ℚ) < (d : ℚ) := by exact_mod_cast hd
  have hdQ' : ((d : ℚ)) ≠ 0 := ne_of_gt hdQ
  set y : ℚ := (n : ℚ) / (d : ℚ) with hy
  have hf : Int.fdiv n (d : Int) = ⌊y⌋ := fdiv_eq_floorQ n d
  have he : y - (⌊y⌋ : ℚ) = ((n - ⌊y⌋ * (d : Int) : Int) : ℚ) / (d : ℚ) := by
    rw [eq_div_iff hdQ', sub_mul, hy, div_mul_cancel₀ _ hdQ']
    push_cast
    ring
  have hc1 : (2 * (n - Int.fdiv n (d : Int) * (d : Int)) < (d : Int)) ↔
      (y - (⌊y⌋ : ℚ) < 1 / 2) := by
    rw [hf, he, div_lt_div_iff₀ hdQ (by norm_num : (0 : ℚ) < 2)]
    constructor
    · intro h
      have h' : ((2 * (n - ⌊y⌋ * (d : Int)) : Int) : ℚ) < ((d : Int) : ℚ) := by
        exact_mod_cast h
      push_cast at h'
      push_cast
      linarith
    · intro h
      have h' : ((2 * (n - ⌊y⌋ * (d : Int)) : Int) : ℚ) < ((d : Int) : ℚ) := by
        push_cast
        push_cast at h
        linarith
      exact_mod_cast h'
  have hc2 : ((d : Int) < 2 * (n - Int.fdiv n (d : Int) * (d : Int))) ↔
      (1 / 2 < y - (⌊y⌋ : ℚ)) := by
    rw [hf, he, div_lt_div_iff₀ (by norm_num : (0 : ℚ) < 2) hdQ]
    constructor
    · intro h
      have h' : ((d : Int) : ℚ) < ((2 * (n - ⌊y⌋ * (d : Int)) : Int) : ℚ) := by
        exact_mod_cast h
      push_cast at h'
      push_cast
      linarith
    · intro h
      have h' : ((d : Int) : ℚ) < ((2 * (n - ⌊y⌋ * (d : Int)) : Int) : ℚ) := by
        push_cast
        push_cast at h
        linarith
      exact_mod_cast h'
  have hc3 : (Int.fdiv n (d : Int) % 2 == 0) = true ↔ Even ⌊y⌋ := by
    rw [hf, Int.even_iff]
    simp
  unfold roundHalfEvenInt roundHEQ
  by_cases h1 : 2 * (n - Int.fdiv n (d : Int) * (d : Int)) < (d : Int)
  · have g1 := hc1.mp h1
    rw [if_pos h1, if_pos g1, hf]
  · have g1 : ¬(y - (⌊y⌋ : ℚ) < 1 / 2) := fun hcon => h1 (hc1.mpr hcon)
    rw [if_neg h1, if_neg g1]
    by_cases h2 : (d : Int) < 2 * (n - Int.fdiv n (d : Int) * (d : Int))
    · have g2 := hc2.mp h2
      rw [if_pos h2, if_pos g2, hf]
    · have g2 : ¬(1 / 2 < y - (⌊y⌋ : ℚ)) := fun hcon => h2 (hc2.mpr hcon)
      rw [if_neg h2, if_neg g2]
      by_cases h3 : (Int.fdiv n (d : Int) % 2 == 0) = true
      · have g3 := hc3.mp h3
        rw [if_pos h3, if_pos g3, hf]
      · have g3 : ¬ Even ⌊y⌋ := fun hcon => h3 (hc3.mpr hcon)
        rw [if_neg h3, if_neg g3, hf]

/-- `Q.roundTo 1` denotes the reference one-decimal round-half-even. -/
theorem roundTo_one_toRat (x : Q) (hx : x.Pos) :
    (x.roundTo 1).toRat = specRound1 x.toRat ∧ (x.roundTo 1).Pos := by
  constructor
  · show ((roundHalfEvenInt (x.num * 10 ^ 1) x.den : Int) : ℚ) / ((10 ^ 1 : Nat) : ℚ) =
      specRound1 x.toRat
    rw [roundHalfEvenInt_eq _ _ hx]
    unfold specRound1
    have harg : ((x.num * 10 ^ 1 : Int) : ℚ) / ((x.den : Nat) : ℚ) = x.toRat * 10 := by
      rw [Q.toRat]
      push_cast
      ring
    rw [harg]
    norm_num
  · show 0 < 10 ^ 1
    norm_num

/-- Round-half-even stays within integer bounds around its argument. -/
theorem roundHEQ_bounds (y : ℚ) (h0 : 0 ≤ y) (h100 : y ≤ 100) :
    (0 : ℚ) ≤ (roundHEQ y : ℚ) ∧ (roundHEQ y : ℚ) ≤ 100 := by
  have hfl : (0 : ℤ) ≤ ⌊y⌋ := Int.floor_nonneg.mpr h0
  have hfu : (⌊y⌋ : ℚ) ≤ 100 := le_trans (Int.floor_le y) h100
  have hfu' : ⌊y⌋ ≤ 100 := by exact_mod_cast hfu
  unfold roundHEQ
  by_cases h1 : y - ⌊y⌋ < 1 / 2
  · rw [if_pos h1]
    constructor
    · exact_mod_cast hfl
    · exact_mod_cast hfu'
  · rw [if_neg h1]
    push_neg at h1
    have hstep : (⌊y⌋ : ℚ) + 1 ≤ y + 1 / 2 := by linarith
    have h100' : ((⌊y⌋ + 1 : ℤ) : ℚ) ≤ 100 + 1 / 2 := by push_cast; linarith
    have hint : ⌊y⌋ + 1 ≤ 100 := by
      by_contra hcon
      push_neg at hcon
      have : (101 : ℚ) ≤ ((⌊y⌋ + 1 : ℤ) : ℚ) := by exact_mod_cast hcon
      linarith
    by_cases h2 : 1 / 2 < y - ⌊y⌋
    · rw [if_pos h2]
      constructor
      · have : (0 : ℤ) ≤ ⌊y⌋ + 1 := by omega
        exact_mod_cast this
      · exact_mod_cast hint
    · rw [if_neg h2]
      by_cases h3 : Even ⌊y⌋
      · rw [if_pos h3]
        constructor
        · exact_mod_cast hfl
        · exact_mod_cast hfu'
      · rw [if_neg h3]
        constructor
        · have : (0 : ℤ) ≤ ⌊y⌋ + 1 := by omega
          exact_mod_cast this
        · exact_mod_cast hint

/-- Decompose a list of well-formed numeric JSON values. -/
theorem nums_decomp :
    ∀ (vs : List Json),
      (∀ v ∈ vs, ∃ q : Q, v = .num q ∧ q.Pos ∧ 0 ≤ q.toRat ∧ q.toRat ≤ 10) →
    ∃ qs : List Q, vs = qs.map Json.num ∧ qs.length = vs.length ∧
      (∀ q ∈ qs, q.Pos ∧ 0 ≤ q.toRat ∧ q.toRat ≤ 10) ∧
      qs.map Q.toRat = vs.map numRatOf := by
  intro vs
  induction vs with
  | nil => exact fun _ => ⟨[], rfl, rfl, by simp, rfl⟩
  | cons v tail ih =>
    intro h
    obtain ⟨q, rfl, hqP, hq0, hq10⟩ := h v (List.mem_cons_self _ _)
    obtain ⟨qs, rfl, hlen, hall, hrats⟩ :=
      ih (fun x hx => h x (List.mem_cons_of_mem _ hx))
    refine ⟨q :: qs, rfl, by simp [List.length_map], ?_, ?_⟩
    · intro x hx
      rcases List.mem_cons.mp hx with rfl | hx
      · exact ⟨hqP, hq0, hq10⟩
      · exact hall x hx
    · simp only [List.map_cons, hrats, numRatOf]

theorem q510_pos : ((⟨5, 10⟩ : Q)).Pos := by
  show (0 : Nat) < 10
  decide

theorem q210_pos : ((⟨2, 10⟩ : Q)).Pos := by
  show (0 : Nat) < 10
  decide

theorem toRat_q510 : ((⟨5, 10⟩ : Q)).toRat = 5 / 10 := by
  rw [Q.toRat]
  norm_num

theorem toRat_q210 : ((⟨2, 10⟩ : Q)).toRat = 2 / 10 := by
  rw [Q.toRat]
  norm_num

theorem ten_pos : (10 : Q).Pos := Q.pos_ofNat 10

theorem toRat_ten : (10 : Q).toRat = 10 := by
  rw [show (10 : Q) = Q.ofNat 10 from rfl, Q.toRat_ofNat]
  norm_num

/-- Semantics and bounds of one critique-dimension score. -/
theorem critiqueDimensionScore_ok (avg : Q) (hP : avg.Pos) (h0 : 0 ≤ avg.toRat)
    (h10 : avg.toRat ≤ 10) (dc : Json) :
    0 ≤ (critiqueDimensionScore avg dc).toRat ∧
    (critiqueDimensionScore avg dc).toRat ≤ 10 ∧
    (∀ dkvs, dc = .obj dkvs → dkvs ≠ [] →
      (critiqueDimensionScore avg dc).toRat =
        specRound1 (max 0 (min 10 (avg.toRat - (issueCountOf dkvs : ℚ) * (5 / 10) -
          (recCountOf dkvs : ℚ) * (2 / 10))))) ∧
    ((¬ ∃ dkvs, dc = .obj dkvs ∧ dkvs ≠ []) →
      critiqueDimensionScore avg dc = avg) := by
  cases dc with
  | obj dkvs =>
    cases dkvs with
    | nil =>
      have hdef : critiqueDimensionScore avg (.obj []) = avg := rfl
      refine ⟨by rw [hdef]; exact h0, by rw [hdef]; exact h10, ?_, fun _ => hdef⟩
      intro dkvs' heq hne
      cases heq
      exact absurd rfl hne
    | cons dh dt =>
      have hne : (dh :: dt) ≠ ([] : List (String × Json)) := by simp
      have hscore : critiqueDimensionScore avg (.obj (dh :: dt)) =
          ((Q.maxQ 0 (Q.minQ 10
            ((avg.sub ((Q.ofNat (issueCountOf (dh :: dt))).mul ⟨5, 10⟩)).sub
             ((Q.ofNat (recCountOf (dh :: dt))).mul ⟨2, 10⟩)))).roundTo 1) := rfl
      have hipP := Q.pos_mul (Q.pos_ofNat (issueCountOf (dh :: dt))) q510_pos
      have hrpP := Q.pos_mul (Q.pos_ofNat (recCountOf (dh :: dt))) q210_pos
      have hsubP := Q.pos_sub (Q.pos_sub hP hipP) hrpP
      have hminP : (Q.minQ 10
          ((avg.sub ((Q.ofNat (issueCountOf (dh :: dt))).mul ⟨5, 10⟩)).sub
           ((Q.ofNat (recCountOf (dh :: dt))).mul ⟨2, 10⟩))).Pos :=
        Q.pos_minQ ten_pos hsubP
      have hclampP : (Q.maxQ 0 (Q.minQ 10
          ((avg.sub ((Q.ofNat (issueCountOf (dh :: dt))).mul ⟨5, 10⟩)).sub
           ((Q.ofNat (recCountOf (dh :: dt))).mul ⟨2, 10⟩)))).Pos :=
        Q.pos_maxQ Q.pos_zero hminP
      have hclampR : (Q.maxQ 0 (Q.minQ 10
          ((avg.sub ((Q.ofNat (issueCountOf (dh :: dt))).mul ⟨5, 10⟩)).sub
           ((Q.ofNat (recCountOf (dh :: dt))).mul ⟨2, 10⟩)))).toRat =
          max 0 (min 10 (avg.toRat - (issueCountOf (dh :: dt) : ℚ) * (5 / 10) -
            (recCountOf (dh :: dt) : ℚ) * (2 / 10))) := by
        rw [Q.toRat_maxQ Q.pos_zero hminP, Q.toRat_minQ ten_pos hsubP,
          Q.toRat_sub (Q.pos_sub hP hipP) hrpP, Q.toRat_sub hP hipP,
          Q.toRat_mul (Q.pos_ofNat _) q510_pos, Q.toRat_mul (Q.pos_ofNat _) q210_pos,
          Q.toRat_ofNat, Q.toRat_ofNat, Q.toRat_zero, toRat_q510, toRat_q210, toRat_ten]
      obtain ⟨hround, hroundP⟩ := roundTo_one_toRat _ hclampP
      rw [hclampR] at hround
      set w : ℚ := max 0 (min 10 (avg.toRat - (issueCountOf (dh :: dt) : ℚ) * (5 / 10) -
        (recCountOf (dh :: dt) : ℚ) * (2 / 10))) with hw
      have hclamp0 : 0 ≤ w := le_max_left _ _
      have hclamp10 : w ≤ 10 := max_le (by norm_num) (min_le_left _ _)
      have hb := roundHEQ_bounds (w * 10) (by nlinarith) (by nlinarith)
      refine ⟨?_, ?_, ?_, ?_⟩
      · rw [hscore, hround]
        unfold specRound1
        nlinarith [hb.1]
      · rw [hscore, hround]
        unfold specRound1
        nlinarith [hb.2]
      · intro dkvs' heq hne'
        cases heq
        rw [hscore, hround]
      · intro hcon
        exact absurd ⟨dh :: dt, rfl, hne⟩ hcon
  | null =>
    exact ⟨h0, h10, fun _ h => (Json.noConfusion h), fun _ => rfl⟩
  | bool b =>
    exact ⟨h0, h10, fun _ h => (Json.noConfusion h), fun _ => rfl⟩
  | num q =>
    exact ⟨h0, h10, fun _ h => (Json.noConfusion h), fun _ => rfl⟩
  | str sv =>
    exact ⟨h0, h10, fun _ h => (Json.noConfusion h), fun _ => rfl⟩
  | arr xs =>
    exact ⟨h0, h10, fun _ h => (Json.noConfusion h), fun _ => rfl⟩

/-- C10: `build_critique_domain_scores` always returns exactly 7 entries,
one per fixed critique dimension in order (Scientific, Practical, Language,
Context, Persuasiveness, Ethical, Innovation); each score lies in [0, 10];
a dimension's score is not taken from the critique collaborator but derived
from the average section score minus 0.5 per listed issue and 0.2 per
listed recommendation, clamped to [0, 10] and rounded to one decimal,
defaulting to the section average (or 6.0 with no section scores) when the
dimension's critique is missing (or empty, or not a dict). -/
theorem build_critique_domain_scores_spec (ckvs skvs svkvs : List (String × Json))
    (hfield : Json.findD skvs "scores" (.obj []) = .obj svkvs)
    (hvals : ∀ v ∈ sectionValsOf svkvs,
      ∃ q : Q, v = .num q ∧ q.Pos ∧ 0 ≤ q.toRat ∧ q.toRat ≤ 10) :
    ∃ avg : Q, avg.Pos ∧ 0 ≤ avg.toRat ∧ avg.toRat ≤ 10 ∧
      (sectionValsOf svkvs = [] → avg.toRat = 6) ∧
      (sectionValsOf svkvs ≠ [] → avg.toRat =
        ((sectionValsOf svkvs).map numRatOf).sum /
          ((sectionValsOf svkvs).length : ℚ)) ∧
      build_critique_domain_scores (.obj ckvs) (.obj skvs) =
        .ok (critiqueDomainMap.map (fun dims =>
          Json.obj [("domain", .str dims.2),
            ("score", .num (critiqueDimensionScore avg
              (Json.findD ckvs dims.1 (.obj []))))])) ∧
      critiqueDomainMap.length = 7 ∧
      (critiqueDomainMap.map fun dims => dims.2) =
        ["Scientific", "Practical", "Language", "Context",
         "Persuasiveness", "Ethical", "Innovation"] ∧
      (∀ dims ∈ critiqueDomainMap,
        0 ≤ (critiqueDimensionScore avg (Json.findD ckvs dims.1 (.obj []))).toRat ∧
        (critiqueDimensionScore avg (Json.findD ckvs dims.1 (.obj []))).toRat ≤ 10 ∧
        (∀ dkvs, Json.findD ckvs dims.1 (.obj []) = .obj dkvs → dkvs ≠ [] →
          (critiqueDimensionScore avg (Json.findD ckvs dims.1 (.obj []))).toRat =
            specRound1 (max 0 (min 10 (avg.toRat
              - (issueCountOf dkvs : ℚ) * (5 / 10)
              - (recCountOf dkvs : ℚ) * (2 / 10))))) ∧
        ((¬ ∃ dkvs, Json.findD ckvs dims.1 (.obj []) = .obj dkvs ∧ dkvs ≠ []) →
          critiqueDimensionScore avg (Json.findD ckvs dims.1 (.obj [])) = avg)) := by
  have hrun0 : ∀ A : Q, sectionAvg (sectionValsOf svkvs) = .ok A →
      build_critique_domain_scores (.obj ckvs) (.obj skvs) =
      .ok (critiqueDomainMap.map (fun dims =>
        Json.obj [("domain", .str dims.2),
          ("score", .num (critiqueDimensionScore A
            (Json.findD ckvs dims.1 (.obj []))))])) := by
    intro A hA
    unfold build_critique_domain_scores
    show (Except.ok (Json.findD skvs "scores" (.obj [])) >>= _) = _
    rw [hfield]
    show (sectionAvg (sectionValsOf svkvs) >>= _) = _
    rw [hA]
    rfl
  have hfinish : ∀ avg : Q, avg.Pos → 0 ≤ avg.toRat → avg.toRat ≤ 10 →
      (∀ dims ∈ critiqueDomainMap,
        0 ≤ (critiqueDimensionScore avg (Json.findD ckvs dims.1 (.obj []))).toRat ∧
        (critiqueDimensionScore avg (Json.findD ckvs dims.1 (.obj []))).toRat ≤ 10 ∧
        (∀ dkvs, Json.findD ckvs dims.1 (.obj []) = .obj dkvs → dkvs ≠ [] →
          (critiqueDimensionScore avg (Json.findD ckvs dims.1 (.obj []))).toRat =
            specRound1 (max 0 (min 10 (avg.toRat
              - (issueCountOf dkvs : ℚ) * (5 / 10)
              - (recCountOf dkvs : ℚ) * (2 / 10))))) ∧
        ((¬ ∃ dkvs, Json.findD ckvs dims.1 (.obj []) = .obj dkvs ∧ dkvs ≠ []) →
          critiqueDimensionScore avg (Json.findD ckvs dims.1 (.obj [])) = avg)) :=
    fun avg hP h0 h10 dims _ =>
      critiqueDimensionScore_ok avg hP h0 h10 (Json.findD ckvs dims.1 (.obj []))
  cases hemp : (sectionValsOf svkvs).isEmpty with
  | true =>
    have hnil : sectionValsOf svkvs = [] := List.isEmpty_iff.mp hemp
    have hP : ((⟨6, 1⟩ : Q)).Pos := Nat.one_pos
    have hval : ((⟨6, 1⟩ : Q)).toRat = 6 := by
      rw [Q.toRat]
      norm_num
    refine ⟨⟨6, 1⟩, hP, by rw [hval]; norm_num, by rw [hval]; norm_num,
      fun _ => hval, fun hcon => absurd hnil hcon, ?_, rfl, rfl,
      hfinish _ hP (by rw [hval]; norm_num) (by rw [hval]; norm_num)⟩
    apply hrun0
    unfold sectionAvg
    rw [if_pos hemp]
    rfl
  | false =>
    have hne : sectionValsOf svkvs ≠ [] := by
      intro hcon
      rw [hcon] at hemp
      simp at hemp
    obtain ⟨qs, hdecomp, hlen, hall, hrats⟩ := nums_decomp _ hvals
    have hqne : qs ≠ [] := by
      intro hcon
      rw [hcon] at hdecomp
      exact hne (by simpa using hdecomp)
    have hqlen : 0 < qs.length := List.length_pos.mpr hqne
    obtain ⟨hfPos, hfVal⟩ := foldl_add_toRat qs (fun q hq => (hall q hq).1) 0 Q.pos_zero
    have hslen : (sectionValsOf svkvs).length = qs.length := by
      rw [hdecomp]
      simp [List.length_map]
    have hlnum : (Q.ofNat (sectionValsOf svkvs).length).num ≠ 0 := by
      show (((sectionValsOf svkvs).length : Int)) ≠ 0
      rw [hslen]
      exact_mod_cast Nat.pos_iff_ne_zero.mp hqlen
    have hlPos : (Q.ofNat (sectionValsOf svkvs).length).Pos := Q.pos_ofNat _
    have havgP : ((qs.foldl Q.add 0).div (Q.ofNat (sectionValsOf svkvs).length)).Pos :=
      Q.pos_div hfPos hlnum
    have hqlenQ : (0 : ℚ) < ((sectionValsOf svkvs).length : ℚ) := by
      rw [hslen]
      exact_mod_cast hqlen
    have hsum0 : 0 ≤ (qs.map Q.toRat).sum :=
      List.sum_nonneg (by
        intro x hx
        obtain ⟨q, hqm, rfl⟩ := List.mem_map.mp hx
        exact (hall q hqm).2.1)
    have hsum10 : (qs.map Q.toRat).sum ≤ (qs.length : ℚ) * 10 := by
      have h1 := List.sum_le_card_nsmul (qs.map Q.toRat) 10 (by
        intro x hx
        obtain ⟨q, hqm, rfl⟩ := List.mem_map.mp hx
        exact (hall q hqm).2.2)
      simpa [nsmul_eq_mul, mul_comm] using h1
    have hsum : Json.sumNums (sectionValsOf svkvs) = .ok (qs.foldl Q.add 0) := by
      rw [hdecomp]
      exact sumNums_map_num qs 0
    have hrun : build_critique_domain_scores (.obj ckvs) (.obj skvs) =
        .ok (critiqueDomainMap.map (fun dims =>
          Json.obj [("domain", .str dims.2),
            ("score", .num (critiqueDimensionScore
              ((qs.foldl Q.add 0).div (Q.ofNat (sectionValsOf svkvs).length))
              (Json.findD ckvs dims.1 (.obj []))))])) := by
      apply hrun0
      unfold sectionAvg
      rw [if_neg (by simp [hemp])]
      rw [hsum]
      rfl
    have havgVal : ((qs.foldl Q.add 0).div
        (Q.ofNat (sectionValsOf svkvs).length)).toRat =
        ((sectionValsOf svkvs).map numRatOf).sum /
          ((sectionValsOf svkvs).length : ℚ) := by
      rw [Q.toRat_div hfPos hlPos hlnum, Q.toRat_ofNat, hfVal, Q.toRat_zero,
        zero_add, hrats]
    have havg0 : 0 ≤ ((qs.foldl Q.add 0).div
        (Q.ofNat (sectionValsOf svkvs).length)).toRat := by
      rw [Q.toRat_div hfPos hlPos hlnum, Q.toRat_ofNat, hfVal, Q.toRat_zero]
      apply div_nonneg (by linarith) (le_of_lt hqlenQ)
    have havg10 : ((qs.foldl Q.add 0).div
        (Q.ofNat (sectionValsOf svkvs).length)).toRat ≤ 10 := by
      rw [Q.toRat_div hfPos hlPos hlnum, Q.toRat_ofNat, hfVal, Q.toRat_zero,
        div_le_iff₀ hqlenQ]
      have : ((sectionValsOf svkvs).length : ℚ) = (qs.length : ℚ) := by
        rw [hslen]
      rw [this]
      linarith
    exact ⟨(qs.foldl Q.add 0).div (Q.ofNat (sectionValsOf svkvs).length),
      havgP, havg0, havg10, fun hcon => absurd hcon hne, fun _ => havgVal,
      hrun, rfl, rfl, hfinish _ havgP havg0 havg10⟩

/-- Witness for C10: section scores 8 and 6 (average 7), scientific critique
with 1 issue and 2 recommendations → scientific score 7 − 0.5 − 0.4 = 6.1,
all other dimensions default to 7; every entry is in range. -/
theorem build_critique_domain_scores_witness :
    (∃ avg : Q, avg.Pos ∧ 0 ≤ avg.toRat ∧ avg.toRat ≤ 10 ∧
      (sectionValsOf c10ScoresInner = [] → avg.toRat = 6) ∧
      (sectionValsOf c10ScoresInner ≠ [] → avg.toRat =
        ((sectionValsOf c10ScoresInner).map numRatOf).sum /
          ((sectionValsOf c10ScoresInner).length : ℚ)) ∧
      build_critique_domain_scores (.obj c10Critique) (.obj c10Scores) =
        .ok (critiqueDomainMap.map (fun dims =>
          Json.obj [("domain", .str dims.2),
            ("score", .num (critiqueDimensionScore avg
              (Json.findD c10Critique dims.1 (.obj []))))])) ∧
      critiqueDomainMap.length = 7 ∧
      (critiqueDomainMap.map fun dims => dims.2) =
        ["Scientific", "Practical", "Language", "Context",
         "Persuasiveness", "Ethical", "Innovation"] ∧
      (∀ dims ∈ critiqueDomainMap,
        0 ≤ (critiqueDimensionScore avg (Json.findD c10Critique dims.1 (.obj []))).toRat ∧
        (critiqueDimensionScore avg (Json.findD c10Critique dims.1 (.obj []))).toRat ≤ 10 ∧
        (∀ dkvs, Json.findD c10Critique dims.1 (.obj []) = .obj dkvs → dkvs ≠ [] →
          (critiqueDimensionScore avg (Json.findD c10Critique dims.1 (.obj []))).toRat =
            specRound1 (max 0 (min 10 (avg.toRat
              - (issueCountOf dkvs : ℚ) * (5 / 10)
              - (recCountOf dkvs : ℚ) * (2 / 10))))) ∧
        ((¬ ∃ dkvs, Json.findD c10Critique dims.1 (.obj []) = .obj dkvs ∧ dkvs ≠ []) →
          critiqueDimensionScore avg (Json.findD c10Critique dims.1 (.obj [])) = avg))) ∧
    build_critique_domain_scores (.obj c10Critique) (.obj c10Scores) =
      .ok [.obj [("domain", .str "Scientific"), ("score", .num ⟨61, 10⟩)],
           .obj [("domain", .str "Practical"), ("score", .num ⟨14, 2⟩)],
           .obj [("domain", .str "Language"), ("score", .num ⟨14, 2⟩)],
           .obj [("domain", .str "Context"), ("score", .num ⟨14, 2⟩)],
           .obj [("domain", .str "Persuasiveness"), ("score", .num ⟨14, 2⟩)],
           .obj [("domain", .str "Ethical"), ("score", .num ⟨14, 2⟩)],
           .obj [("domain", .str "Innovation"), ("score", .num ⟨14, 2⟩)]] := by
  constructor
  · apply build_critique_domain_scores_spec c10Critique c10Scores c10ScoresInner rfl
    intro v hv
    rcases List.mem_cons.mp hv with rfl | hv
    · exact ⟨⟨8, 1⟩, rfl, Nat.one_pos, by norm_num [Q.toRat], by norm_num [Q.toRat]⟩
    rcases List.mem_cons.mp hv with rfl | hv
    · exact ⟨⟨6, 1⟩, rfl, Nat.one_pos, by norm_num [Q.toRat], by norm_num [Q.toRat]⟩
    · cases hv
  · rfl

namespace WSManager

variable {ω μ : Type}

/-- Auxiliary: replacing the bindings of a present key makes the lookup
return the new binding. -/
theorem find?_mapReplace {α : Type} (k : String) (v : α) :
    ∀ (l : List (String × α)), l.any (fun p => p.1 == k) = true →
    (l.map (fun p => if p.1 == k then (k, v) else p)).find?
      (fun p => p.1 == k) = some (k, v) := by
  intro l
  induction l with
  | nil => intro h; cases h
  | cons p l' ih =>
    intro hany
    cases hp : (p.1 == k) with
    | true =>
      simp only [List.map_cons, hp, if_true]
      rw [List.find?_cons_of_pos _ (by simp)]
    | false =>
      have hany2 : l'.any (fun q => q.1 == k) = true := by
        rw [List.any_cons, hp] at hany
        simpa using hany
      simp only [List.map_cons, hp, if_false]
      rw [List.find?_cons_of_neg _ (by simp [hp])]
      exact ih hany2

/-- Updating a key makes the lookup return the new binding. -/
theorem find?_updateAssoc {α : Type} (l : List (String × α)) (k : String) (v : α) :
    (updateAssoc l k v).find? (fun p => p.1 == k) = some (k, v) := by
  unfold updateAssoc
  split
  · next hany => exact find?_mapReplace k v l hany
  · next hany =>
    have hnone : l.find? (fun p => p.1 == k) = none := by
      rw [List.find?_eq_none]
      intro x hx hcon
      exact hany (List.any_eq_true.mpr ⟨x, hx, hcon⟩)
    rw [List.find?_append, hnone]
    simp

/-- Popping a key makes the lookup miss. -/
theorem find?_popAssoc {α : Type} (l : List (String × α)) (k : String) :
    (popAssoc l k).find? (fun p => p.1 == k) = none := by
  rw [List.find?_eq_none]
  intro x hx
  rw [popAssoc, List.mem_filter] at hx
  simp only [Bool.not_eq_true'] at hx
  simp [hx.2]

/-- Events published while a session has no observer leave the observer
sets untouched and append to that session's buffer, in order. -/
theorem publish_buffers [DecidableEq ω] (sendOk : ω → μ → Bool) (sid : String) :
    ∀ (evs : List μ) (m : WSManager ω μ), m.getConns sid = [] →
      (publishAll sendOk m sid evs).connections = m.connections ∧
      (publishAll sendOk m sid evs).getPending sid = m.getPending sid ++ evs := by
  intro evs
  induction evs with
  | nil => exact fun m _ => ⟨rfl, by simp [publishAll]⟩
  | cons e evs ih =>
    intro m hno
    have hstep : send sendOk m sid e =
        (⟨m.connections, updateAssoc m.pending sid (m.getPending sid ++ [e])⟩, []) := by
      unfold send
      rw [if_pos (by simp [hno])]
    have hpend : (⟨m.connections, updateAssoc m.pending sid (m.getPending sid ++ [e])⟩ :
        WSManager ω μ).getPending sid = m.getPending sid ++ [e] := by
      unfold getPending
      rw [find?_updateAssoc]
    have hconns : (⟨m.connections, updateAssoc m.pending sid (m.getPending sid ++ [e])⟩ :
        WSManager ω μ).getConns sid = [] := hno
    have hfold : publishAll sendOk m sid (e :: evs) =
        publishAll sendOk
          ⟨m.connections, updateAssoc m.pending sid (m.getPending sid ++ [e])⟩ sid evs := by
      unfold publishAll
      rw [List.foldl_cons, hstep]
    obtain ⟨hc, hp⟩ := ih _ hconns
    rw [hfold]
    refine ⟨hc, ?_⟩
    rw [hp, hpend]
    simp

/-- C6: events published while a session has no observer are appended to
that session's FIFO buffer; a subsequent `connect` delivers all buffered
events to the new observer in original publication order exactly once and
clears the buffer. -/
theorem buffered_events_flushed_exactly_once [DecidableEq ω]
    (sendOk : ω → μ → Bool) (m : WSManager ω μ) (sid : String)
    (evs : List μ) (ws : ω)
    (hno : m.getConns sid = [])
    (hok : ∀ e ∈ m.getPending sid ++ evs, sendOk ws e = true) :
    (publishAll sendOk m sid evs).getPending sid = m.getPending sid ++ evs ∧
    (connect sendOk (publishAll sendOk m sid evs) sid ws).2 =
      m.getPending sid ++ evs ∧
    (connect sendOk (publishAll sendOk m sid evs) sid ws).1.getPending sid = [] := by
  obtain ⟨hconn, hpend⟩ := publish_buffers sendOk sid evs m hno
  refine ⟨hpend, ?_, ?_⟩
  · show ((publishAll sendOk m sid evs).getPending sid).filter
      (fun msg => sendOk ws msg) = _
    rw [hpend]
    exact List.filter_eq_self.mpr hok
  · show (⟨_, popAssoc (publishAll sendOk m sid evs).pending sid⟩ :
      WSManager ω μ).getPending sid = []
    unfold getPending
    rw [find?_popAssoc]

/-- Witness for C6: two events published to a session with no observer,
then one subscriber whose sends succeed: both events are delivered in
order and the buffer is cleared. -/
theorem buffered_events_flushed_witness :
    (publishAll (fun (_ : Nat) (_ : String) => true)
      (⟨[], []⟩ : WSManager Nat String) "s" ["a", "b"]).getPending "s" =
      [] ++ ["a", "b"] ∧
    (connect (fun _ _ => true)
      (publishAll (fun _ _ => true) (⟨[], []⟩ : WSManager Nat String) "s"
        ["a", "b"]) "s" 0).2 = [] ++ ["a", "b"] ∧
    (connect (fun _ _ => true)
      (publishAll (fun _ _ => true) (⟨[], []⟩ : WSManager Nat String) "s"
        ["a", "b"]) "s" 0).1.getPending "s" = [] :=
  buffered_events_flushed_exactly_once (fun _ _ => true) ⟨[], []⟩ "s"
    ["a", "b"] 0 rfl (fun _ _ => rfl)

/-- The removal loop of `send` (lines 56–60): removing a duplicate-free
batch of observers one by one filters exactly them out and leaves the
pending buffers untouched. -/
theorem send_removal_fold [DecidableEq ω] (sid : String) :
    ∀ (rem : List ω) (m : WSManager ω μ), (m.getConns sid).Nodup →
      rem.Nodup → (∀ w ∈ rem, w ∈ m.getConns sid) →
      ((rem.foldl (fun acc ws =>
          let cs := acc.getConns sid
          if cs.contains ws then
            (⟨updateAssoc acc.connections sid (cs.erase ws), acc.pending⟩ :
              WSManager ω μ)
          else acc) m).getConns sid =
        (m.getConns sid).filter (fun w => !(rem.contains w))) ∧
      ((rem.foldl (fun acc ws =>
          let cs := acc.getConns sid
          if cs.contains ws then
            (⟨updateAssoc acc.connections sid (cs.erase ws), acc.pending⟩ :
              WSManager ω μ)
          else acc) m).pending = m.pending) := by
  intro rem
  induction rem with
  | nil =>
    intro m _ _ _
    constructor
    · simp [List.foldl_nil]
    · rfl
  | cons r rs ih =>
    intro m hcs hnd hsub
    have hrmem : r ∈ m.getConns sid := hsub r (List.mem_cons_self _ _)
    have hcont : (m.getConns sid).contains r = true := by
      exact List.elem_eq_true_of_mem hrmem
    have hm1conns : (⟨updateAssoc m.connections sid ((m.getConns sid).erase r),
        m.pending⟩ : WSManager ω μ).getConns sid = (m.getConns sid).erase r := by
      unfold getConns
      rw [find?_updateAssoc]
    have hndtail : rs.Nodup := (List.nodup_cons.mp hnd).2
    have hrnotin : r ∉ rs := (List.nodup_cons.mp hnd).1
    have hsub' : ∀ w ∈ rs, w ∈ (m.getConns sid).erase r := by
      intro w hw
      have hne : w ≠ r := fun hcon => hrnotin (hcon ▸ hw)
      exact (List.mem_erase_of_ne hne).mpr (hsub w (List.mem_cons_of_mem _ hw))
    have hnd' : ((m.getConns sid).erase r).Nodup := hcs.erase r
    rw [List.foldl_cons]
    dsimp only
    rw [if_pos hcont]
    obtain ⟨hcres, hpres⟩ := ih _ (by rw [hm1conns]; exact hnd') hndtail
      (by rw [hm1conns]; exact hsub')
    constructor
    · rw [hcres, hm1conns, List.Nodup.erase_eq_filter hcs, List.filter_filter]
      apply List.filter_congr
      intro x _
      cases hxr : (x == r) with
      | true =>
        have hxeq : x = r := eq_of_beq hxr
        subst hxeq
        simp [List.contains_cons]
      | false =>
        have hne : x ≠ r := fun hcon => by
          rw [hcon] at hxr
          simp at hxr
        simp [List.contains_cons, hxr, hne, Bool.and_comm]
    · rw [hpres]

/-- C7: `send` with at least one observer delivers the message to every
observer whose transport works; one observer's disconnection-type failure
blocks no other delivery, and exactly the failing observers are removed
from the session's set; nothing is buffered and the call raises nothing
(the model function is total; the Python code catches
`WebSocketDisconnect`/`RuntimeError` around each per-observer send). -/
theorem publish_delivers_all_and_drops_failed [DecidableEq ω]
    (sendOk : ω → μ → Bool) (m : WSManager ω μ) (sid : String) (msg : μ)
    (hne : m.getConns sid ≠ []) (hnd : (m.getConns sid).Nodup) :
    (send sendOk m sid msg).2 =
      (m.getConns sid).filter (fun ws => sendOk ws msg) ∧
    (send sendOk m sid msg).1.getConns sid =
      (m.getConns sid).filter (fun ws => sendOk ws msg) ∧
    (send sendOk m sid msg).1.pending = m.pending := by
  unfold send
  rw [if_neg (by simp [List.isEmpty_iff, hne])]
  dsimp only
  refine ⟨rfl, ?_, ?_⟩
  · by_cases htr :
      ((m.getConns sid).filter (fun ws => !(sendOk ws msg))).isEmpty = true
    · rw [if_pos htr]
      have hall : ∀ ws ∈ m.getConns sid, sendOk ws msg = true := by
        intro ws hws
        by_contra hcon
        have hmem : ws ∈ (m.getConns sid).filter (fun ws => !(sendOk ws msg)) :=
          List.mem_filter.mpr ⟨hws, by simp [hcon]⟩
        rw [List.isEmpty_iff.mp htr] at hmem
        cases hmem
      exact (List.filter_eq_self.mpr hall).symm
    · rw [if_neg htr]
      obtain ⟨hcres, hpres⟩ := send_removal_fold sid
        ((m.getConns sid).filter (fun ws => !(sendOk ws msg))) m hnd
        (hnd.filter _) (fun w hw => (List.mem_filter.mp hw).1)
      rw [hcres]
      apply List.filter_congr
      intro x hx
      cases hsend : sendOk x msg with
      | true =>
        cases hccc : ((m.getConns sid).filter
            (fun ws => !(sendOk ws msg))).contains x with
        | true =>
          have hxmem := List.mem_filter.mp (List.mem_of_elem_eq_true hccc)
          rw [hsend] at hxmem
          simp at hxmem
        | false => simp [hccc]
      | false =>
        have hxmem : x ∈ (m.getConns sid).filter (fun ws => !(sendOk ws msg)) :=
          List.mem_filter.mpr ⟨hx, by simp [hsend]⟩
        have hel := List.elem_eq_true_of_mem hxmem
        simp only [hel]
        simp [hsend]
  · by_cases htr :
      ((m.getConns sid).filter (fun ws => !(sendOk ws msg))).isEmpty = true
    · rw [if_pos htr]
    · rw [if_neg htr]
      obtain ⟨hcres, hpres⟩ := send_removal_fold sid
        ((m.getConns sid).filter (fun ws => !(sendOk ws msg))) m hnd
        (hnd.filter _) (fun w hw => (List.mem_filter.mp hw).1)
      exact hpres

/-- Witness for C7: a session with three observers, the middle one failing:
the message reaches observers 1 and 3, and exactly observer 2 is removed. -/
theorem publish_delivers_witness :
    (send (fun (w : Nat) (_ : String) => !(w == 2))
      (⟨[("s", [1, 2, 3])], []⟩ : WSManager Nat String) "s" "ev").2 =
      ([1, 2, 3] : List Nat).filter (fun w => !(w == 2)) ∧
    (send (fun (w : Nat) (_ : String) => !(w == 2))
      (⟨[("s", [1, 2, 3])], []⟩ : WSManager Nat String) "s" "ev").1.getConns "s" =
      ([1, 2, 3] : List Nat).filter (fun w => !(w == 2)) ∧
    (send (fun (w : Nat) (_ : String) => !(w == 2))
      (⟨[("s", [1, 2, 3])], []⟩ : WSManager Nat String) "s" "ev").1.pending = [] :=
  publish_delivers_all_and_drops_failed (fun w _ => !(w == 2))
    ⟨[("s", [1, 2, 3])], []⟩ "s" "ev" (by decide) (by decide)

/-- A true Boolean signature-prefix test is a sublist witness. -/
theorem sigPrefixB_sublist : ∀ (xs ys : List (Nat × String × Nat)),
    sigPrefixB xs ys = true → List.Sublist xs ys
  | [], ys, _ => List.nil_sublist ys
  | x :: xs, [], h => by simp [sigPrefixB] at h
  | x :: xs, y :: ys, h => by
    unfold sigPrefixB at h
    rw [Bool.and_eq_true] at h
    have hxy : x = y := eq_of_beq h.1
    subst hxy
    exact List.Sublist.cons₂ x (sigPrefixB_sublist xs ys h.2)

/-- A Boolean signature prefix of equal length is the whole list. -/
theorem sigPrefixB_eq : ∀ (xs ys : List (Nat × String × Nat)),
    sigPrefixB xs ys = true → xs.length = ys.length → xs = ys
  | [], [], _, _ => rfl
  | [], y :: ys, _, hl => by simp at hl
  | x :: xs, [], h, _ => by simp [sigPrefixB] at h
  | x :: xs, y :: ys, h, hl => by
    unfold sigPrefixB at h
    rw [Bool.and_eq_true] at h
    have hxy : x = y := eq_of_beq h.1
    have hrest : xs = ys := sigPrefixB_eq xs ys h.2 (by simpa using hl)
    rw [hxy, hrest]

/-- Master trace lemma: every run emits a signature prefix of `fullSigs`,
complete exactly when the run returns a response. -/
theorem run_trace_sig (c : Collab) (mb : Q) (od : Option String) (cp : Bool) :
    traceOkB (run_full_evaluation c mb od cp).1
      (exceptIsOk (run_full_evaluation c mb od cp).2) = true := by
  unfold run_full_evaluation
  repeat' first | rfl | split | dsimp only

/-- The event signatures of a run form a sublist of `fullSigs`. -/
theorem run_trace_sub (c : Collab) (mb : Q) (od : Option String) (cp : Bool) :
    List.Sublist ((run_full_evaluation c mb od cp).1.map evSig) fullSigs := by
  have h := run_trace_sig c mb od cp
  unfold traceOkB at h
  rw [Bool.and_eq_true] at h
  exact sigPrefixB_sublist _ _ h.1

/-- A successful run emits exactly the sixteen signatures of `fullSigs`. -/
theorem run_trace_complete (c : Collab) (mb : Q) (od : Option String) (cp : Bool)
    (h : exceptIsOk (run_full_evaluation c mb od cp).2 = true) :
    (run_full_evaluation c mb od cp).1.map evSig = fullSigs := by
  have h2 := run_trace_sig c mb od cp
  unfold traceOkB at h2
  rw [Bool.and_eq_true] at h2
  apply sigPrefixB_eq _ _ h2.1
  have h3 := h2.2
  rw [h] at h3
  simp only [Bool.not_true, Bool.false_or] at h3
  have h4 : (run_full_evaluation c mb od cp).1.length = 16 := by
    simp only [beq_iff_eq] at h3
    exact h3
  rw [List.length_map, h4]
  rfl

/-- C9: in a run over the 8 `PIPELINE_STAGES`, every `started` event for
ordinal k carries progress ⌊k·100/8⌋ and every `completed` event carries
⌊(k+1)·100/8⌋; all progress values lie in [0,100] and are non-decreasing in
emission order, and the ordinals of the `started` events (likewise of the
`completed` events) are strictly increasing. -/
theorem run_progress_contract (c : Collab) (mb : Q) (od : Option String)
    (cp : Bool) :
    PIPELINE_STAGES.length = 8 ∧
    (∀ ev ∈ (run_full_evaluation c mb od cp).1,
        ev.progress ≤ 100 ∧
        (ev.status = "started" → ev.progress = ev.stageIndex * 100 / 8) ∧
        (ev.status = "completed" → ev.progress = (ev.stageIndex + 1) * 100 / 8)) ∧
    List.Pairwise (· ≤ ·) ((run_full_evaluation c mb od cp).1.map Ev.progress) ∧
    List.Pairwise (· < ·)
      (((run_full_evaluation c mb od cp).1.filter
        (fun ev => ev.status == "started")).map Ev.stageIndex) ∧
    List.Pairwise (· < ·)
      (((run_full_evaluation c mb od cp).1.filter
        (fun ev => ev.status == "completed")).map Ev.stageIndex) := by
  have hsub := run_trace_sub c mb od cp
  refine ⟨rfl, ?_, ?_, ?_, ?_⟩
  · intro ev hev
    have hmem : evSig ev ∈ fullSigs := hsub.subset (List.mem_map_of_mem evSig hev)
    have hall : ∀ x ∈ fullSigs, x.2.2 ≤ 100 ∧
        (x.2.1 = "started" → x.2.2 = x.1 * 100 / 8) ∧
        (x.2.1 = "completed" → x.2.2 = (x.1 + 1) * 100 / 8) := by decide
    exact hall _ hmem
  · have hm := hsub.map (fun x : Nat × String × Nat => x.2.2)
    rw [List.map_map] at hm
    exact List.Pairwise.sublist hm (by decide)
  · have hf := hsub.filter (fun x : Nat × String × Nat => x.2.1 == "started")
    rw [List.filter_map] at hf
    have hm := hf.map (fun x : Nat × String × Nat => x.1)
    rw [List.map_map] at hm
    exact List.Pairwise.sublist hm (by decide)
  · have hf := hsub.filter (fun x : Nat × String × Nat => x.2.1 == "completed")
    rw [List.filter_map] at hf
    have hm := hf.map (fun x : Nat × String × Nat => x.1)
    rw [List.map_map] at hm
    exact List.Pairwise.sublist hm (by decide)

/-- C1 counterexample: when the critique collaborator raises at stage
ordinal 4, the run's trace contains NO `errored` event at all (the claimed
"exactly one `errored` status event" is never emitted — `emit_stage` is
only ever called with `started` or `completed`); the failure is surfaced
solely as the typed error returned to the caller. -/
theorem run_critique_failure_no_errored :
    (run_full_evaluation cCritFail 50000 (some "AI") false).1.countP
        (fun ev => ev.status == "errored") = 0 ∧
    (run_full_evaluation cCritFail 50000 (some "AI") false).2 =
      .error (.exc "boom") := by
  exact ⟨rfl, rfl⟩

/-- C1 (amended): if the critique collaborator raises at stage ordinal 4
(after the first four stages succeeded), the run stops with exactly the nine
events of stages 0–4 — none of them `errored`, none for ordinal 5 or later —
and surfaces the typed error to its caller instead of a partial result. -/
theorem run_critique_failure_aborts (msg : String) (mb : Q) :
    run_full_evaluation (critFailC msg) mb (some "AI") false =
      (c1Trace, .error (.exc msg)) ∧
    c1Trace.countP (fun ev => ev.status == "errored") = 0 ∧
    (∀ ev ∈ c1Trace, ev.stageIndex ≤ 4) := by
  refine ⟨rfl, rfl, by decide⟩

/-- C4: when the assembled four-tier budget text is insufficient (here: it
lacks the minimum length, as the claim's empty-string scenario does), the
sufficiency check fails, the budget stage returns the deterministic
insufficient-information result without consulting the budget agent (the
stage result is invariant under replacing `run_budget_agent`), and a whole
concrete run short-circuits identically for every budget agent. -/
theorem budget_insufficient_shortcircuit (c : Collab) (mb : Q)
    (domain : String) (summary : List (String × SummSection))
    (pages : List Page) (chunks : List Chunk) (scores : Json)
    (hlen : (assembleBudgetText summary pages chunks).length ≤ 50) :
    hasBudgetInfo (assembleBudgetText summary pages chunks) = false ∧
    (∀ ba, budgetStage { c with run_budget_agent := ba } mb domain summary
        pages chunks scores = budgetStage c mb domain summary pages chunks scores) ∧
    (∀ bi, buildBudgetInput (assembleBudgetText summary pages chunks) summary
        scores = .ok bi →
      budgetStage c mb domain summary pages chunks scores =
        .ok (insufficientBudgetEval, "Budget information unavailable; issued warning")) ∧
    (∀ ba mb', run_full_evaluation { cNoBudget with run_budget_agent := ba }
        mb' (some "AI") false = run_full_evaluation cNoBudget mb' (some "AI") false) := by
  have h : hasBudgetInfo (assembleBudgetText summary pages chunks) = false := by
    unfold hasBudgetInfo
    rw [decide_eq_false (Nat.not_lt.mpr hlen)]
    rfl
  refine ⟨h, ?_, ?_, ?_⟩
  · intro ba
    unfold budgetStage
    dsimp only
    cases hbi : buildBudgetInput (assembleBudgetText summary pages chunks)
        summary scores with
    | error e => rfl
    | ok bi =>
      rw [h]
      rfl
  · intro bi hbi
    unfold budgetStage
    dsimp only
    rw [hbi]
    dsimp only
    rw [h]
    rfl
  · intro ba mb'
    rfl

/-- C4 witness: for the concrete no-budget run the stage returns the
deterministic insufficient-information result and ignores the budget
agent entirely. -/
theorem budget_insufficient_witness :
    budgetStage cNoBudget 50000 "AI" cNoBudgetSummary cPages [] cScores =
      .ok (insufficientBudgetEval, "Budget information unavailable; issued warning") ∧
    budgetStage { cNoBudget with run_budget_agent := fun _ _ _ => .error (.exc "never") }
        50000 "AI" cNoBudgetSummary cPages [] cScores =
      budgetStage cNoBudget 50000 "AI" cNoBudgetSummary cPages [] cScores :=
  ⟨(budget_insufficient_shortcircuit cNoBudget 50000 "AI" cNoBudgetSummary cPages
      [] cScores (by decide)).2.2.1 cNoBudgetInput (by rfl),
   (budget_insufficient_shortcircuit cNoBudget 50000 "AI" cNoBudgetSummary cPages
      [] cScores (by decide)).2.1 (fun _ _ _ => .error (.exc "never"))⟩

/-- A fold whose step either keeps or extends the accumulator only ever
appends to it. -/
theorem foldl_ext_of_step (g : String → String × SummSection → String)
    (hg : ∀ acc p, ∃ s, g acc p = acc ++ s) :
    ∀ (l : List (String × SummSection)) (acc : String),
      ∃ t, l.foldl g acc = acc ++ t := by
  intro l
  induction l with
  | nil => intro acc; exact ⟨"", (String.append_empty acc).symm⟩
  | cons p rest ih =>
    intro acc
    rw [List.foldl_cons]
    obtain ⟨s, hs⟩ := hg acc p
    obtain ⟨t, ht⟩ := ih (g acc p)
    exact ⟨s ++ t, by rw [ht, hs, String.append_assoc]⟩

/-- C5 counterexample: with a weak (but non-empty) tier-1 yield and a
budget-matching raw page, tier 2 REPLACES the tier-1 text instead of
concatenating: the tier-1 yield "XYZQ" does not survive into the tier-2
output at all. -/
theorem budget_tier2_replaces :
    budgetTier1 [("Budget", ⟨"XYZQ", [], []⟩)] = "XYZQ" ∧
    budgetTier2 "XYZQ" [⟨"budget cost"⟩] = "budget cost" ∧
    strHasSub "XYZQ" (budgetTier2 "XYZQ" [⟨"budget cost"⟩]) = false := by
  exact ⟨rfl, rfl, by decide⟩

/-- C5 (amended): tier gating and accumulation in the four-tier budget
extraction: (i) when the accumulated text is at least 100 characters,
tier 2 only ever appends to it; (ii) tier 3 appends its joined top-ten
matching-chunk yield with an explicit separator exactly when that yield
exceeds 100 characters, and otherwise leaves the accumulated text
unchanged — silently discarding even a non-empty yield of at most 100
characters; (iii) tier 4 always only appends and (iv) runs only while the
accumulated text is under 200 characters, being the identity otherwise;
but (v) when the accumulated text is under 100 characters and some raw
page matches, tier 2 REPLACES it with the joined matching pages (so weak
tier-1 text is discarded, not concatenated). -/
theorem budget_tier_accumulation (budgetText : String) (pages : List Page)
    (chunks : List Chunk) (summary : List (String × SummSection)) :
    (100 ≤ budgetText.length →
      ∃ t, budgetTier2 budgetText pages = budgetText ++ t) ∧
    (100 < (tier3Yield chunks).length →
      budgetTier3 budgetText chunks =
        budgetText ++ "\n\n--- Budget from Vectorstore ---\n\n" ++ tier3Yield chunks) ∧
    ((tier3Yield chunks).length ≤ 100 →
      budgetTier3 budgetText chunks = budgetText) ∧
    (∃ t, budgetTier4 budgetText summary = budgetText ++ t) ∧
    (200 ≤ budgetText.length → budgetTier4 budgetText summary = budgetText) ∧
    (budgetText.length < 100 →
      ((pages.filter pageMatchesBudget).map Page.page_content).isEmpty = false →
      budgetTier2 budgetText pages =
        String.intercalate "\n\n" ((pages.filter pageMatchesBudget).map Page.page_content)) := by
  refine ⟨?_, ?_, ?_, ?_, ?_, ?_⟩
  · intro h100
    unfold budgetTier2
    dsimp only
    by_cases he : ((pages.filter pageMatchesBudget).map Page.page_content).isEmpty = true
    · rw [if_pos he]
      exact ⟨"", (String.append_empty budgetText).symm⟩
    · rw [if_neg he, if_neg (by omega : ¬ budgetText.length < 100)]
      exact ⟨"\n\n--- Additional Budget Details from Pages ---\n\n" ++
        String.intercalate "\n\n" ((pages.filter pageMatchesBudget).map Page.page_content),
        by rw [String.append_assoc]⟩
  · intro hy
    have hy' : 100 < (String.intercalate "\n\n" (((chunks.filter (fun d =>
        ["$", "budget", "cost", "expense"].any
          (fun kw => strHasSub kw (strLower d.text)))).map (fun d => d.text)).take 10)).length := hy
    unfold budgetTier3
    dsimp only
    by_cases he : ((chunks.filter (fun d =>
        ["$", "budget", "cost", "expense"].any
          (fun kw => strHasSub kw (strLower d.text)))).map (fun d => d.text)).isEmpty = true
    · exfalso
      rw [List.isEmpty_iff.mp he] at hy'
      exact absurd hy' (by decide)
    · rw [if_neg he, if_pos hy']
      rfl
  · intro hy
    have hy' : (String.intercalate "\n\n" (((chunks.filter (fun d =>
        ["$", "budget", "cost", "expense"].any
          (fun kw => strHasSub kw (strLower d.text)))).map (fun d => d.text)).take 10)).length ≤ 100 := hy
    unfold budgetTier3
    dsimp only
    by_cases he : ((chunks.filter (fun d =>
        ["$", "budget", "cost", "expense"].any
          (fun kw => strHasSub kw (strLower d.text)))).map (fun d => d.text)).isEmpty = true
    · rw [if_pos he]
    · rw [if_neg he, if_neg (Nat.not_lt.mpr hy')]
  · unfold budgetTier4
    by_cases hl : budgetText.length < 200
    · rw [if_pos hl]
      apply foldl_ext_of_step
      intro acc p
      by_cases hc : (p.1 != "Budget" &&
          budgetKeywords.any (fun kw => strHasSub kw (strLower p.2.text))) = true
      · rw [if_pos hc]
        exact ⟨"\n\n--- From " ++ p.1 ++ " Section ---\n" ++ p.2.text,
          by simp only [String.append_assoc]⟩
      · rw [if_neg hc]
        exact ⟨"", (String.append_empty acc).symm⟩
    · rw [if_neg hl]
      exact ⟨"", (String.append_empty budgetText).symm⟩
  · intro h200
    unfold budgetTier4
    rw [if_neg (by omega : ¬ budgetText.length < 200)]
  · intro h100 hne
    unfold budgetTier2
    dsimp only
    rw [if_neg (by simp [hne] : ¬ ((pages.filter pageMatchesBudget).map Page.page_content).isEmpty = true),
      if_pos h100]

set_option maxRecDepth 8000 in
/-- C5 witness: a 200-character accumulated text is only appended to by
tier 2 and left alone by tier 4; tier 3 appends a 207-character chunk
yield with its separator but discards the non-empty 16-character yield
"budget cost here"; and a 1-character accumulated text with a matching
page is replaced by tier 2. -/
theorem budget_tier_accumulation_witness :
    (∃ t, budgetTier2 s200 [] = s200 ++ t) ∧
    budgetTier3 "" [(⟨cBudgetText⟩ : Chunk)] =
      "" ++ "\n\n--- Budget from Vectorstore ---\n\n" ++
        tier3Yield [(⟨cBudgetText⟩ : Chunk)] ∧
    budgetTier3 "" [(⟨"budget cost here"⟩ : Chunk)] = "" ∧
    budgetTier4 s200 [] = s200 ∧
    budgetTier2 "x" [⟨"budget cost"⟩] =
      String.intercalate "\n\n"
        (([(⟨"budget cost"⟩ : Page)].filter pageMatchesBudget).map Page.page_content) :=
  ⟨(budget_tier_accumulation s200 [] [] []).1 (by decide),
   (budget_tier_accumulation "" [] [(⟨cBudgetText⟩ : Chunk)] []).2.1 (by decide),
   (budget_tier_accumulation "" [] [(⟨"budget cost here"⟩ : Chunk)] []).2.2.1 (by decide),
   (budget_tier_accumulation s200 [] [] []).2.2.2.2.1 (by decide),
   (budget_tier_accumulation "x" [⟨"budget cost"⟩] [] []).2.2.2.2.2 (by decide) (by decide)⟩

/-- No operation the endpoint performs is ever a `close_session` call. -/
theorem pipelineOps_no_close (tr : List Ev) (res : Except PyErr Response) :
    ∀ op ∈ pipelineOps tr res, isCloseOp op = false := by
  intro op hop
  unfold pipelineOps at hop
  cases res with
  | ok resp =>
    dsimp only at hop
    simp only [List.mem_cons, List.mem_append, List.mem_map,
      List.mem_singleton, List.not_mem_nil, or_false] at hop
    rcases hop with (rfl | ⟨x, _, rfl⟩) | rfl <;> rfl
  | error e =>
    dsimp only at hop
    by_cases hq : quotaError (PyErr.msg e) = true
    · rw [if_pos hq] at hop
      simp only [List.mem_cons, List.mem_append, List.mem_map,
        List.mem_singleton, List.not_mem_nil, or_false] at hop
      rcases hop with (rfl | ⟨x, _, rfl⟩) | rfl <;> rfl
    · rw [if_neg hq] at hop
      simp only [List.mem_cons, List.mem_append, List.mem_map,
        List.not_mem_nil, or_false] at hop
      rcases hop with rfl | ⟨x, _, rfl⟩ <;> rfl

set_option maxRecDepth 8000 in
/-- C8 counterexample: a fully successful concrete run emits the final
finalize `completed` event and the endpoint sends the completion frame,
yet no `close_session` call ever occurs — `close_session` has no call site
in the pipeline or the endpoint. -/
theorem create_evaluation_no_close_cex :
    exceptIsOk (run_full_evaluation cDone 50000 (some "AI") false).2 = true ∧
    ((run_full_evaluation cDone 50000 (some "AI") false).1.map evSig).getLast? =
      some (7, "completed", 100) ∧
    (create_evaluation_ops cDone 50000 (some "AI") false).1.countP isCloseOp = 0 := by
  exact ⟨rfl, rfl, rfl⟩

/-- C8 (amended): on successful completion of all stages the run's last
event is the finalize-stage `completed` event (signature (7, "completed",
100)) and the endpoint's last manager operation is the completion frame —
but NO `close_session` invocation ever occurs, for any collaborators or
parameters: the broadcaster is never closed (its buffers and observers are
only cleaned up by client-initiated disconnects). -/
theorem create_evaluation_completion_no_close (c : Collab) (mb : Q)
    (od : Option String) (cp : Bool)
    (h : exceptIsOk (run_full_evaluation c mb od cp).2 = true) :
    (∀ op ∈ (create_evaluation_ops c mb od cp).1, isCloseOp op = false) ∧
    ((run_full_evaluation c mb od cp).1.map evSig).getLast? =
      some (7, "completed", 100) ∧
    (∃ d, (create_evaluation_ops c mb od cp).1.getLast? =
      some (WsOp.sendComplete d)) := by
  refine ⟨fun op hop => pipelineOps_no_close _ _ op hop, ?_, ?_⟩
  · rw [run_trace_complete c mb od cp h]
    rfl
  · obtain ⟨resp, hresp⟩ : ∃ r, (run_full_evaluation c mb od cp).2 = .ok r := by
      cases hr : (run_full_evaluation c mb od cp).2 with
      | ok r => exact ⟨r, rfl⟩
      | error e =>
        rw [hr] at h
        exact absurd h (by simp [exceptIsOk])
    refine ⟨resp.decision, ?_⟩
    show (pipelineOps (run_full_evaluation c mb od cp).1
      (run_full_evaluation c mb od cp).2).getLast? = _
    rw [hresp]
    unfold pipelineOps
    dsimp only
    rw [show WsOp.sendQueued ::
        (run_full_evaluation c mb od cp).1.map WsOp.sendEv ++
        [WsOp.sendComplete resp.decision] =
      (WsOp.sendQueued :: (run_full_evaluation c mb od cp).1.map WsOp.sendEv) ++
        [WsOp.sendComplete resp.decision] from rfl]
    exact List.getLast?_concat _

set_option maxRecDepth 8000 in
/-- C8 witness: the amended completion/no-close property instantiated on
the concrete all-success collaborators. -/
theorem create_evaluation_completion_no_close_witness :
    (∀ op ∈ (create_evaluation_ops cDone 50000 (some "AI") false).1,
      isCloseOp op = false) ∧
    ((run_full_evaluation cDone 50000 (some "AI") false).1.map evSig).getLast? =
      some (7, "completed", 100) ∧
    (∃ d, (create_evaluation_ops cDone 50000 (some "AI") false).1.getLast? =
      some (WsOp.sendComplete d)) :=
  create_evaluation_completion_no_close cDone 50000 (some "AI") false (by rfl)

set_option maxRecDepth 8000 in
/-- C9 witness: the progress contract instantiated on the concrete
all-success run, with the per-event formula discharged at the stage-3
`started` event. -/
theorem run_progress_contract_witness :
    (emit_stage 3 "started" (some "Scoring proposal against rubric") none).progress =
      (emit_stage 3 "started" (some "Scoring proposal against rubric") none).stageIndex
        * 100 / 8 ∧
    List.Pairwise (· ≤ ·)
      ((run_full_evaluation cDone 50000 (some "AI") false).1.map Ev.progress) :=
  ⟨((run_progress_contract cDone 50000 (some "AI") false).2.1
      (emit_stage 3 "started" (some "Scoring proposal against rubric") none)
      (by decide)).2.1 rfl,
   (run_progress_contract cDone 50000 (some "AI") false).2.2.1⟩
